import Mathlib

/-
Verification of the pygermanet repository (GermaNet lexicon interface and
MongoDB import pipeline) against its natural-language specification.

The development is a shallow embedding of the relevant source code:

* pygermanet/germanet.py   — the query library (GermaNet, Synset, Lemma);
* pygermanet/mongo_import.py — the XML readers, relation/paraphrase wiring
  and the information-content builder;
* scripts/filter_wordcounts.py — the corpus word-count filter.

Modelling conventions:

* The MongoDB database is a record of lists: synsets, lexunits, and the
  metainfo max_min_depths mapping.  Mongo ObjectIds are modelled as Nat
  (field oid); the vendor external id is the String field id.
* Python exceptions are modelled with Except PyError; a function that can
  raise returns Except PyError alpha.
* Python floats are modelled as real numbers; the float arithmetic done by
  the similarity metrics (negation, addition, exact division, math.log) is
  exact at every point the claims mention, so the real-number model agrees
  with IEEE semantics there.  Integer/fraction arithmetic of the importer
  is modelled with rationals.
* Python dicts keyed by strings are association lists; assignment replaces
  the value of an existing key in place.
* The unbounded recursion of Synset.hypernym_paths is given an explicit
  fuel argument; running out of fuel models the RecursionError that the
  Python recursion would raise on a cyclic hypernym graph.  Theorems about
  the hierarchy assume a rank function witnessing acyclicity and enough
  fuel, which is exactly the regime in which the Python code terminates.
* Python sorted() on Synset/Lemma objects orders by a key derived from the
  first member lemma; none of the claims below depend on the order of a
  returned list, only on its members, so sorting uses a simplified key
  where noted.
-/

/-- Python exception kinds that the modelled code can raise. -/
inductive PyError : Type where
  | typeError
  | keyError
  | attributeError
  | valueError
  | zeroDivisionError
  | assertionError
  | indexError
  | recursionError
  deriving DecidableEq

deriving instance DecidableEq for Except

/-- True when an Except value is a success (no exception was raised). -/
def exceptOk {ε α : Type} : Except ε α → Bool
  | Except.ok _ => true
  | Except.error _ => false

/-- A Python dict value as stored on an imported record: the XML reader
converts some string attributes to booleans or integers in place. -/
inductive AttrVal : Type where
  | str : String → AttrVal
  | bool : Bool → AttrVal
  | int : Int → AttrVal
  deriving DecidableEq, BEq

/-- Left fold returning early with the first raised exception, mirroring a
Python for-loop whose body can raise. -/
def foldlME {ε σ α : Type} (f : σ → α → Except ε σ) : σ → List α → Except ε σ
  | st, [] => Except.ok st
  | st, x :: xs =>
    match f st x with
    | Except.error e => Except.error e
    | Except.ok st2 => foldlME f st2 xs

/-- Map that raises the first exception raised by the element function,
mirroring a Python list comprehension whose body can raise. -/
def mapME {ε α β : Type} (f : α → Except ε β) : List α → Except ε (List β)
  | [] => Except.ok []
  | x :: xs =>
    match f x with
    | Except.error e => Except.error e
    | Except.ok y =>
      match mapME f xs with
      | Except.error e => Except.error e
      | Except.ok ys => Except.ok (y :: ys)

/-- Insertion step of the insertion sort used to model Python sorted(). -/
def insertLe {α : Type} (le : α → α → Bool) (x : α) : List α → List α
  | [] => [x]
  | y :: ys => if le x y then x :: y :: ys else y :: insertLe le x ys

/-- Insertion sort used to model Python sorted(). -/
def sortLe {α : Type} (le : α → α → Bool) : List α → List α
  | [] => []
  | x :: xs => insertLe le x (sortLe le xs)

/-- Minimum of a list, as Python min(); none on the empty list. -/
def listMin {α : Type} [LinearOrder α] : List α → Option α
  | [] => none
  | x :: xs =>
    match listMin xs with
    | none => some x
    | some m => some (min x m)

/-- Python dict assignment for string-valued dicts: replace the value of an
existing key, otherwise append a new binding. -/
def setKey (m : List (String × String)) (k v : String) : List (String × String) :=
  if m.any (fun e => e.1 == k) then m.map (fun e => if e.1 == k then (k, v) else e)
  else m ++ [(k, v)]

/-- Python dict assignment for AttrVal-valued dicts. -/
def dictSet (d : List (String × AttrVal)) (k : String) (v : AttrVal) :
    List (String × AttrVal) :=
  if d.any (fun e => e.1 == k) then d.map (fun e => if e.1 == k then (k, v) else e)
  else d ++ [(k, v)]

/-- A lexical unit document in the lexunits collection, after the
lexical import pass (germanet.py class Lemma reads these fields). -/
structure LexUni : Type where
  oid : Nat
  id : String
  orthForm : String
  orthVar : Option String
  oldOrthForm : Option String
  oldOrthVar : Option String
  category : String
  sense : Nat
  synset : Nat
  rels : List (String × Nat)
  paraphrases : List (List (String × AttrVal))
  deriving DecidableEq

/-- A synset document in the synsets collection (germanet.py class Synset
reads these fields). -/
structure Synset : Type where
  oid : Nat
  id : String
  category : String
  infocont : ℚ
  lexunits : List Nat
  rels : List (String × Nat)
  deriving DecidableEq

/-- The GermaNet MongoDB database: the synsets and lexunits collections and
the metainfo max_min_depths mapping. -/
structure DB : Type where
  synsets : List Synset
  lexunits : List LexUni
  max_min_depths : List (String × Nat)
  deriving DecidableEq

def LONG_POS_TO_SHORT : List (String × String) :=
  [("verben", "v"), ("nomen", "n"), ("adj", "j")]

def SHORT_POS_TO_LONG : List (String × String) :=
  [("v", "verben"), ("n", "nomen"), ("j", "adj")]

/-- find_one on the synsets collection by ObjectId. -/
def DB.find_synset (db : DB) (oid : Nat) : Option Synset :=
  db.synsets.find? (fun s => s.oid == oid)

/-- find_one on the lexunits collection by ObjectId. -/
def DB.find_lexunit (db : DB) (oid : Nat) : Option LexUni :=
  db.lexunits.find? (fun u => u.oid == oid)

/-- The single-character part of speech of a category, as Synset.pos and
Lemma.pos compute it (with a placeholder for an unknown category, which in
Python would raise KeyError inside the sort; no claim depends on it). -/
def shortPos (category : String) : String :=
  (LONG_POS_TO_SHORT.lookup category).getD "?"

/-- Sort key order of Lemma.__lt__: lexicographic on the triple
(orthForm, pos, sense). -/
def lemmaLe (u v : LexUni) : Bool :=
  (compare u.orthForm v.orthForm).isLT ||
    (u.orthForm == v.orthForm &&
      ((compare (shortPos u.category) (shortPos v.category)).isLT ||
        (shortPos u.category == shortPos v.category && Nat.ble u.sense v.sense)))

/-- GermaNet.lemmas: looks up lexical units by orthographic form and an
optional part-of-speech code.  A code not in SHORT_POS_TO_LONG yields None
(modelled as Option.none); otherwise the matching lexunits documents are
returned sorted. -/
def GermaNet.lemmas (db : DB) (lemmaStr : String) (pos : Option String) :
    Option (List LexUni) :=
  match pos with
  | some p =>
    match SHORT_POS_TO_LONG.lookup p with
    | none => none
    | some longPos =>
      some (sortLe lemmaLe
        (db.lexunits.filter (fun u => u.orthForm == lemmaStr && u.category == longPos)))
  | none =>
    some (sortLe lemmaLe (db.lexunits.filter (fun u => u.orthForm == lemmaStr)))

/-- GermaNet.synsets: sorted(set(lemma_obj.synset for lemma_obj in
self.lemmas(lemma, pos))).  The generator expression iterates the value
returned by lemmas immediately; when that value is None, Python raises
TypeError.  A lemma whose synset back-reference does not resolve would put
None into the set and make sorted() raise TypeError as well.  The result
is the deduplicated list of synset ObjectIds (Python sorts the Synset
objects by their first lemma; the claims below only use the result as a
set, so the model sorts the ids). -/
def GermaNet.synsets (db : DB) (lemmaStr : String) (pos : Option String) :
    Except PyError (List Nat) :=
  match GermaNet.lemmas db lemmaStr pos with
  | none => Except.error PyError.typeError
  | some us =>
    match mapME (fun u =>
        match db.find_synset u.synset with
        | some s => Except.ok s.oid
        | none => Except.error PyError.typeError) us with
    | Except.error e => Except.error e
    | Except.ok sids => Except.ok (sortLe (fun a b => Nat.ble a b) sids.dedup)

/-- The ObjectIds reachable from a synset through has_hypernym relation
edges, in stored order (Synset.hypernyms before resolution). -/
def Synset.hypernymIds (s : Synset) : List Nat :=
  s.rels.filterMap (fun r => if r.1 == "has_hypernym" then some r.2 else none)

/-- Resolution of a list of synset ObjectIds to documents, as
Synset.rels does through get_synset_by_id.  A dangling id makes
get_synset_by_id return None, and the subsequent attribute access
(None.hypernym_paths) raises AttributeError. -/
def resolveSynsets (db : DB) (ids : List Nat) : Except PyError (List Synset) :=
  mapME (fun i =>
    match db.find_synset i with
    | some s => Except.ok s
    | none => Except.error PyError.attributeError) ids

/-- Synset.hypernym_paths: all root-to-self paths (as lists of ObjectIds)
obtained by recursively appending self to each hypernym's paths; a synset
with no hypernyms yields the single path containing only itself.  The fuel
argument bounds the recursion depth; exhausting it models the
RecursionError Python would raise on a cyclic graph. -/
def Synset.hypernym_paths (db : DB) : Nat → Synset → Except PyError (List (List Nat))
  | 0, _ => Except.error PyError.recursionError
  | fuel + 1, s =>
    match resolveSynsets db s.hypernymIds with
    | Except.error e => Except.error e
    | Except.ok hs =>
      if hs.isEmpty then Except.ok [[s.oid]]
      else
        match mapME (fun h => Synset.hypernym_paths db fuel h) hs with
        | Except.error e => Except.error e
        | Except.ok pss =>
          Except.ok ((pss.map (fun ps => ps.map (fun p => p ++ [s.oid]))).flatten)

/-- Synset.min_depth: the length of the shortest hypernym path.  Python
min() on an empty list raises ValueError (unreachable when hypernym_paths
succeeds). -/
def Synset.min_depth (db : DB) (fuel : Nat) (s : Synset) : Except PyError Nat :=
  match Synset.hypernym_paths db fuel s with
  | Except.error e => Except.error e
  | Except.ok ps =>
    match listMin (ps.map List.length) with
    | some m => Except.ok m
    | none => Except.error PyError.valueError

/-- The indices at which a synset id occurs in a path counted from the end
of the path, as enumerate(reversed(path)) produces them in
Synset.hypernym_distances. -/
def pathOccurrences (p : List Nat) (x : Nat) : List Nat :=
  p.reverse.enum.filterMap (fun ix => if ix.2 == x then some ix.1 else none)

/-- Lookup in the dict built by Synset.hypernym_distances: the minimum,
over every occurrence of x on any of the given hypernym paths, of the
distance from the path end; none when x occurs on no path. -/
def hypDistAt (ps : List (List Nat)) (x : Nat) : Option Nat :=
  listMin ((ps.map (fun p => pathOccurrences p x)).flatten)

/-- The dict returned by Synset._common_hypernyms as an association list:
each synset id appearing in both arguments' hypernym-distance dicts,
paired with the sum of the two minimum distances.  (When other is not a
Synset the caller already returned; see the metrics below.) -/
def Synset.common_hypernyms_dists (db : DB) (fuel : Nat) (a b : Synset) :
    Except PyError (List (Nat × Nat)) :=
  match Synset.hypernym_paths db fuel a with
  | Except.error e => Except.error e
  | Except.ok pa =>
    match Synset.hypernym_paths db fuel b with
    | Except.error e => Except.error e
    | Except.ok pb =>
      Except.ok (pa.flatten.dedup.filterMap (fun x =>
        match hypDistAt pa x, hypDistAt pb x with
        | some d1, some d2 => some (x, d1 + d2)
        | _, _ => none))

/-- Synset.nearest_common_hypernyms: the common hypernyms achieving the
minimum summed distance; empty when there is no common hypernym. -/
def Synset.nearest_common_hypernyms (db : DB) (fuel : Nat) (a b : Synset) :
    Except PyError (List Nat) :=
  match Synset.common_hypernyms_dists db fuel a b with
  | Except.error e => Except.error e
  | Except.ok ch =>
    match listMin (ch.map Prod.snd) with
    | none => Except.ok []
    | some m => Except.ok ((ch.filter (fun y => y.2 == m)).map Prod.fst)

/-- Synset.shortest_path_length: 0 when the synsets are equal (equality of
Synset objects compares ObjectIds), otherwise the minimum summed distance
to a common hypernym, or None when there is none. -/
def Synset.shortest_path_length (db : DB) (fuel : Nat) (a b : Synset) :
    Except PyError (Option Nat) :=
  if a.oid == b.oid then Except.ok (some 0)
  else
    match Synset.common_hypernyms_dists db fuel a b with
    | Except.error e => Except.error e
    | Except.ok ch => Except.ok (listMin (ch.map Prod.snd))

/-- The second argument of a similarity metric: either a Synset object or
any other Python value.  A non-Synset value fails the isinstance checks
and has no infocont attribute. -/
inductive PyVal : Type where
  | syn : Synset → PyVal
  | nonSynset : PyVal

/-- The expression -math.log(q) on a rational q, raising ValueError on a
non-positive argument as math.log does. -/
noncomputable def pyNegLog (q : ℚ) : Except PyError ℝ :=
  if q ≤ 0 then Except.error PyError.valueError
  else Except.ok (-Real.log (q : ℝ))

/-- Synset.sim_lch: 0 for a non-Synset argument or differing categories;
0 when no path through a common hypernym exists; otherwise
-log((d + 1) / (2 * D)) with D = max_min_depths[category] (KeyError when
the category is not in the metainfo mapping, ZeroDivisionError when D is
zero). -/
noncomputable def Synset.sim_lch (db : DB) (fuel : Nat) (a : Synset) (other : PyVal) :
    Except PyError ℝ :=
  match other with
  | PyVal.nonSynset => Except.ok 0
  | PyVal.syn b =>
    if a.category ≠ b.category then Except.ok 0
    else
      match Synset.shortest_path_length db fuel a b with
      | Except.error e => Except.error e
      | Except.ok none => Except.ok 0
      | Except.ok (some d) =>
        match db.max_min_depths.lookup a.category with
        | none => Except.error PyError.keyError
        | some D =>
          if D = 0 then Except.error PyError.zeroDivisionError
          else pyNegLog ((d + 1 : ℚ) / (2 * (D : ℚ)))

/-- Synset.sim_res: 0 for a non-Synset argument; otherwise the negative
log of the smallest nonzero infocont among the nearest common hypernyms,
or 0 when there is no such hypernym or all have infocont 0. -/
noncomputable def Synset.sim_res (db : DB) (fuel : Nat) (a : Synset) (other : PyVal) :
    Except PyError ℝ :=
  match other with
  | PyVal.nonSynset => Except.ok 0
  | PyVal.syn b =>
    match Synset.nearest_common_hypernyms db fuel a b with
    | Except.error e => Except.error e
    | Except.ok nch =>
      if nch.isEmpty then Except.ok 0
      else
        match resolveSynsets db nch with
        | Except.error e => Except.error e
        | Except.ok hs =>
          match listMin ((hs.map Synset.infocont).filter (fun x => x != 0)) with
          | none => Except.ok 0
          | some least => pyNegLog least

/-- Synset.dist_jcn: reads other.infocont before any isinstance check
(AttributeError for a non-Synset); 0 when either infocont is 0; otherwise
-log ic1 + -log ic2 - 2 * sim_res(a, other). -/
noncomputable def Synset.dist_jcn (db : DB) (fuel : Nat) (a : Synset) (other : PyVal) :
    Except PyError ℝ :=
  match other with
  | PyVal.nonSynset => Except.error PyError.attributeError
  | PyVal.syn b =>
    if a.infocont = 0 ∨ b.infocont = 0 then Except.ok 0
    else
      match pyNegLog a.infocont with
      | Except.error e => Except.error e
      | Except.ok l1 =>
        match pyNegLog b.infocont with
        | Except.error e => Except.error e
        | Except.ok l2 =>
          match Synset.sim_res db fuel a (PyVal.syn b) with
          | Except.error e => Except.error e
          | Except.ok icLcs => Except.ok (l1 + l2 - 2 * icLcs)

open scoped Classical in
/-- Synset.sim_lin: reads other.infocont before any isinstance check
(AttributeError for a non-Synset); 0 when either infocont is 0; otherwise
2 * sim_res(a, other) / (-log ic1 + -log ic2), where the float division
raises ZeroDivisionError when the denominator is zero. -/
noncomputable def Synset.sim_lin (db : DB) (fuel : Nat) (a : Synset) (other : PyVal) :
    Except PyError ℝ :=
  match other with
  | PyVal.nonSynset => Except.error PyError.attributeError
  | PyVal.syn b =>
    if a.infocont = 0 ∨ b.infocont = 0 then Except.ok 0
    else
      match pyNegLog a.infocont with
      | Except.error e => Except.error e
      | Except.ok l1 =>
        match pyNegLog b.infocont with
        | Except.error e => Except.error e
        | Except.ok l2 =>
          match Synset.sim_res db fuel a (PyVal.syn b) with
          | Except.error e => Except.error e
          | Except.ok icLcs =>
            if l1 + l2 = 0 then Except.error PyError.zeroDivisionError
            else Except.ok (2 * icLcs / (l1 + l2))

def dbEmpty : DB := { synsets := [], lexunits := [], max_min_depths := [] }

/-- A plain noun synset with no relations, for concrete instances. -/
def synNoun : Synset :=
  { oid := 0, id := "s0", category := "nomen", infocont := 1/2, lexunits := [], rels := [] }

/-- A plain verb synset with no relations, for concrete instances. -/
def synVerb : Synset :=
  { oid := 1, id := "s1", category := "verben", infocont := 1/2, lexunits := [], rels := [] }

/-- A shared root of category nomen with infocont one half. -/
def rootShared : Synset :=
  { oid := 10, id := "g", category := "nomen", infocont := 1/2, lexunits := [], rels := [] }

/-- A noun synset below rootShared. -/
def nounBelow : Synset :=
  { oid := 11, id := "a", category := "nomen", infocont := 1/4, lexunits := [],
    rels := [("has_hypernym", 10)] }

/-- A verb synset below rootShared: the hypernym hierarchies of the two
categories meet, as they do at GNROOT in a real GermaNet import. -/
def verbBelow : Synset :=
  { oid := 12, id := "b", category := "verben", infocont := 1/4, lexunits := [],
    rels := [("has_hypernym", 10)] }

/-- A database in which a noun synset and a verb synset share a hypernym
whose infocont is neither 0 nor 1. -/
def dbCross : DB :=
  { synsets := [rootShared, nounBelow, verbBelow], lexunits := [], max_min_depths := [] }

/-- The fixed STTS tagset to GermaNet category mapping of
filter_wordcounts.py. -/
def STTS_GERMANET_MAPPING : List (String × String) :=
  [("$(", " "), ("$,", " "), ("$.", " "),
   ("ADJ", "j"), ("ADJA", "j"), ("ADJD", "j"), ("ADV", "j"),
   ("APPO", " "), ("APPR", " "), ("APPRART", " "), ("APZR", " "), ("ART", " "),
   ("CARD", "j"), ("FM", "n"), ("ITJ", " "), ("KOKOM", " "), ("KON", " "),
   ("KOUI", " "), ("KOUS", " "), ("NE", "n"), ("NN", "n"),
   ("PAV", " "), ("PROAV", " "), ("PDAT", " "), ("PDS", " "),
   ("PIAT", "j"), ("PIS", "j"), ("PPER", " "), ("PPOSAT", " "), ("PPOSS", " "),
   ("PRELAT", " "), ("PRELS", " "), ("PRF", " "), ("PTKA", " "), ("PTKANT", " "),
   ("PTKNEG", " "), ("PTKVZ", " "), ("PTKZU", " "), ("PWAT", " "), ("PWAV", " "),
   ("PWS", " "), ("TRUNC", " "),
   ("VAFIN", "v"), ("VAIMP", "v"), ("VAINF", "v"), ("VAPP", "v"),
   ("VMFIN", "v"), ("VMINF", "v"), ("VMPP", "v"),
   ("VVFIN", "v"), ("VVIMP", "v"), ("VVINF", "v"), ("VVIZU", "v"), ("VVPP", "v"),
   ("XY", "n")]

/-- The set of all orthographic forms known to GermaNet, as
filter_wordcounts.py builds gn_words from the lexunits collection. -/
def gn_words (db : DB) : List String := db.lexunits.map (fun u => u.orthForm)

/-- The rewrite table from variant and old orthographic forms back to the
canonical orthographic form, as filter_wordcounts.py builds gn_rewrites:
for each lexunit, in collection order, orthVar, oldOrthForm and oldOrthVar
each map to the unit's orthForm, later assignments overwriting earlier
ones. -/
def gn_rewrites (db : DB) : List (String × String) :=
  db.lexunits.foldl (fun m u =>
    let m1 := match u.orthVar with
      | some v => setKey m v u.orthForm
      | none => m
    let m2 := match u.oldOrthForm with
      | some v => setKey m1 v u.orthForm
      | none => m1
    match u.oldOrthVar with
    | some v => setKey m2 v u.orthForm
    | none => m2) []

/-- Digit-string evaluation used to model the Python int() constructor. -/
def digitsVal : List Char → Nat → Option Nat
  | [], acc => some acc
  | c :: cs, acc =>
    if c.isDigit then digitsVal cs (acc * 10 + (c.toNat - 48)) else none

/-- The Python int(s) constructor on a decimal string, raising ValueError
when the string is not a number.  Modelled for optional-sign digit
strings; the remaining Python numeral syntax (surrounding whitespace,
underscores) does not occur in the claims. -/
def pyInt (s : String) : Except PyError Int :=
  match s.toList with
  | [] => Except.error PyError.valueError
  | '-' :: cs =>
    match digitsVal cs 0 with
    | some n => if cs.isEmpty then Except.error PyError.valueError else Except.ok (-(n : Int))
    | none => Except.error PyError.valueError
  | cs =>
    match digitsVal cs 0 with
    | some n => Except.ok (n : Int)
    | none => Except.error PyError.valueError

/-- Counter accumulation: recounts[key] += k with default 0. -/
def recountsAdd (rc : List ((String × String) × Int)) (key : String × String) (k : Int) :
    List ((String × String) × Int) :=
  if rc.any (fun e => e.1 == key) then
    rc.map (fun e => if e.1 == key then (e.1, e.2 + k) else e)
  else rc ++ [(key, k)]

/-- One iteration of the main loop of filter_wordcounts.py on an
already-split input line: lines without exactly four fields are skipped;
the tagset label is mapped through STTS_GERMANET_MAPPING with default
blank; lines not mapping to n, v or j are skipped; the lemma is
canonicalized through the rewrite table; lines whose canonical lemma is
not a known orthographic form are skipped; otherwise int(count) is added
to the accumulator at (category code, canonical lemma) (int() raising
ValueError on a non-numeric count field). -/
def filter_wordcounts_step (gnw : List String) (rw : List (String × String))
    (rc : List ((String × String) × Int)) (line : List String) :
    Except PyError (List ((String × String) × Int)) :=
  match line with
  | [countS, _word, posS, lemmaS] =>
    let pos := (STTS_GERMANET_MAPPING.lookup posS).getD " "
    if !(["n", "v", "j"].contains pos) then Except.ok rc
    else
      let canon := (rw.lookup lemmaS).getD lemmaS
      if !(gnw.contains canon) then Except.ok rc
      else
        match pyInt countS with
        | Except.ok k => Except.ok (recountsAdd rc (pos, canon) k)
        | Except.error e => Except.error e
  | _ => Except.ok rc

/-- Descending order on accumulated counts, as Counter.most_common sorts. -/
def countDescLe (a b : (String × String) × Int) : Bool := decide (b.2 ≤ a.2)

/-- The emitted table of filter_wordcounts.py: the accumulator entries
sorted by descending count, each written as (count, category code,
lemma). -/
def filter_wordcounts_output (rc : List ((String × String) × Int)) :
    List (Int × String × String) :=
  (sortLe countDescLe rc).map (fun e => (e.2, e.1.1, e.1.2))

/-- A parsed XML element: tag, attributes, text, child elements. -/
inductive XmlNode : Type where
  | mk : String → List (String × String) → Option String → List XmlNode → XmlNode

def XmlNode.tag : XmlNode → String
  | XmlNode.mk t _ _ _ => t

def XmlNode.attribs : XmlNode → List (String × String)
  | XmlNode.mk _ a _ _ => a

def XmlNode.text : XmlNode → Option String
  | XmlNode.mk _ _ t _ => t

def XmlNode.children : XmlNode → List XmlNode
  | XmlNode.mk _ _ _ c => c

/-- Truth value of Python "not node.text": true for an absent text and for
the empty string. -/
def textFalsy : Option String → Bool
  | none => true
  | some s => s == ""

/-- The Python str() conversion applied to a possibly absent text: str of
None is the four-character string None. -/
def pyStr : Option String → String
  | none => "None"
  | some s => s

/-- warn_attribs of mongo_import.py: one diagnostic when required
attributes are missing, one when unrecognised attributes are present.
Passing the recognised set as the required set models the None default of
the Python parameter. -/
def warn_attribs (loc : String) (node : XmlNode) (recognised reqd : List String) :
    List String :=
  let found := node.attribs.map Prod.fst
  (if reqd.any (fun k => !(found.contains k)) then [loc ++ " missing attributes"] else []) ++
    (if found.any (fun k => !(recognised.contains k)) then
      [loc ++ " unrecognised properties"] else [])

def SYNSET_ATTRIBS : List String := ["category", "id", "class"]
def LEXUNIT_ATTRIBS : List String :=
  ["styleMarking", "namedEntity", "artificial", "source", "sense", "id"]
def MODIFIER_ATTRIBS : List String := ["category", "property"]
def HEAD_ATTRIBS : List String := ["property"]
def RELATION_ATTRIBS_REQD : List String := ["dir", "from", "name", "to"]
def RELATION_ATTRIBS : List String := RELATION_ATTRIBS_REQD ++ ["inv"]
def LEX_REL_DIRS : List String := ["both", "one"]
def CON_REL_DIRS : List String := ["both", "revert", "one"]
def PARAPHRASE_ATTRIBS : List String :=
  ["edited", "lexUnitId", "wiktionaryId", "wiktionarySense", "wiktionarySenseId"]

def MAP_YESNO_TO_BOOL : List (String × Bool) := [("yes", true), ("no", false)]

/-- The output of read_relation_file: the lex_rel dicts, the con_rel
dicts, and the diagnostics printed along the way. -/
structure RelFileOut : Type where
  lex_rels : List (List (String × String))
  con_rels : List (List (String × String))
  diags : List String
  deriving DecidableEq

/-- read_relation_file of mongo_import.py: asserts the root tag, then
records every lex_rel and con_rel child dict, diagnosing unexpected
children, missing or extra attributes, unrecognized dir values and a
missing inv on dir=both, but accessing the dir key unconditionally, which
raises KeyError when the dir attribute is absent. -/
def read_relation_file (doc : XmlNode) : Except PyError RelFileOut :=
  if doc.tag != "relations" then Except.error PyError.assertionError
  else
    foldlME (fun (out : RelFileOut) child =>
      if child.tag == "lex_rel" then
        let d1 := if child.children.length > 0 then ["lex_rel has unexpected child node"] else []
        let cd := child.attribs
        let d2 := warn_attribs "" child RELATION_ATTRIBS RELATION_ATTRIBS_REQD
        match cd.lookup "dir" with
        | none => Except.error PyError.keyError
        | some dir =>
          let d3 := if !(LEX_REL_DIRS.contains dir) then ["unrecognized lex_rel dir"] else []
          let d4 := if dir == "both" && (cd.lookup "inv").isNone then
            ["lex_rel has dir both but does not specify inv"] else []
          Except.ok { out with lex_rels := out.lex_rels ++ [cd],
                               diags := out.diags ++ d1 ++ d2 ++ d3 ++ d4 }
      else if child.tag == "con_rel" then
        let d1 := if child.children.length > 0 then ["con_rel has unexpected child node"] else []
        let cd := child.attribs
        let d2 := warn_attribs "" child RELATION_ATTRIBS RELATION_ATTRIBS_REQD
        match cd.lookup "dir" with
        | none => Except.error PyError.keyError
        | some dir =>
          let d3 := if !(CON_REL_DIRS.contains dir) then ["unrecognised con_rel dir"] else []
          let d4 := if (dir == "both" || dir == "revert") && (cd.lookup "inv").isNone then
            ["con_rel has dir but does not specify inv"] else []
          Except.ok { out with con_rels := out.con_rels ++ [cd],
                               diags := out.diags ++ d1 ++ d2 ++ d3 ++ d4 }
      else
        Except.ok { out with diags := out.diags ++ ["unrecognised child of relations"] })
      { lex_rels := [], con_rels := [], diags := [] } doc.children

/-- The output of read_paraphrase_file: the paraphrase dicts (with edited
converted to a boolean and wiktionarySenseId to an integer when their
values are well formed) and the diagnostics. -/
structure ParaFileOut : Type where
  paraphrases : List (List (String × AttrVal))
  diags : List String
  deriving DecidableEq

/-- read_paraphrase_file of mongo_import.py: asserts the root tag, then
records every wiktionaryParaphrase child dict, diagnosing unknown
children and attribute problems; it reads the edited and
wiktionarySenseId keys unconditionally, which raises KeyError when either
attribute is absent. -/
def read_paraphrase_file (doc : XmlNode) : Except PyError ParaFileOut :=
  if doc.tag != "wiktionaryParaphrases" then Except.error PyError.assertionError
  else
    foldlME (fun (out : ParaFileOut) child =>
      if child.tag == "wiktionaryParaphrase" then
        let d1 := warn_attribs "" child PARAPHRASE_ATTRIBS PARAPHRASE_ATTRIBS
        let d2 := if child.children.length > 0 then
          ["unrecognised child of wiktionaryParaphrase"] else []
        let pd := child.attribs.map (fun e => (e.1, AttrVal.str e.2))
        match child.attribs.lookup "edited" with
        | none => Except.error PyError.keyError
        | some ed =>
          let (pd2, d3) :=
            match MAP_YESNO_TO_BOOL.lookup ed with
            | none => (pd, ["paraphrase attribute edited has unexpected value"])
            | some b => (dictSet pd "edited" (AttrVal.bool b), [])
          match child.attribs.lookup "wiktionarySenseId" with
          | none => Except.error PyError.keyError
          | some sid =>
            let (pd3, d4) :=
              match digitsVal sid.toList 0 with
              | some n =>
                if sid.toList.isEmpty then
                  (pd2, ["paraphrase attribute wiktionarySenseId has non-integer value"])
                else (dictSet pd2 "wiktionarySenseId" (AttrVal.int (n : Int)), [])
              | none => (pd2, ["paraphrase attribute wiktionarySenseId has non-integer value"])
            Except.ok { out with paraphrases := out.paraphrases ++ [pd3],
                                 diags := out.diags ++ d1 ++ d2 ++ d3 ++ d4 }
      else
        Except.ok { out with diags := out.diags ++ ["unknown child of wiktionaryParaphrases"] })
      { paraphrases := [], diags := [] } doc.children

/-- One example record parsed from an example element. -/
structure ExampleOut : Type where
  text : String
  exframe : Option String
  deriving DecidableEq

/-- One lexUnit record parsed from a lexUnit element: its attribute dict
(with boolean and sense conversions applied), the orthographic form tags
collected so far, the examples and the frames. -/
structure LexUnitOut : Type where
  attrs : List (String × AttrVal)
  orth : List (String × String)
  examples : List ExampleOut
  frames : List String
  deriving DecidableEq

/-- One synset record parsed from a synset element. -/
structure SynsetOut : Type where
  attrs : List (String × String)
  lexunits : List LexUnitOut
  deriving DecidableEq

/-- The conversion of a yes/no lexunit property to a boolean: a
non-boolean value is diagnosed and the raw value left unconverted. -/
def convert_bool_key (loc : String) (d : List (String × AttrVal)) (key : String) :
    List (String × AttrVal) × List String :=
  match d.lookup key with
  | none => (d, [])
  | some (AttrVal.str s) =>
    match MAP_YESNO_TO_BOOL.lookup s with
    | some b => (dictSet d key (AttrVal.bool b), [])
    | none => (d, [loc ++ " lexunit property has non-boolean value " ++ key])
  | some _ => (d, [loc ++ " lexunit property has non-boolean value " ++ key])

/-- The conversion of the sense attribute to an integer: a non-numeric
value is diagnosed and left as a string. -/
def convert_sense (loc : String) (d : List (String × AttrVal)) :
    List (String × AttrVal) × List String :=
  match d.lookup "sense" with
  | none => (d, [])
  | some (AttrVal.str s) =>
    if s.length != 0 && s.toList.all Char.isDigit then
      (dictSet d "sense" (AttrVal.int ((digitsVal s.toList 0).getD 0 : Nat)), [])
    else (d, [loc ++ " lexunit property sense has non-numeric value"])
  | some _ => (d, [loc ++ " lexunit property sense has non-numeric value"])

def ORTH_TAGS : List String := ["orthForm", "orthVar", "oldOrthForm", "oldOrthVar"]

/-- Parsing of one example element: the diagnostics mirror the source,
and when the element has no text child at all the source indexes an empty
list (text[0]) and raises IndexError. -/
def read_example (lexloc : String) (exampleNode : XmlNode) :
    Except PyError (ExampleOut × List String) :=
  let ts := exampleNode.children.filter (fun c => c.tag == "text")
  let d1 := if ts.length != 1 ||
      (match ts.head? with
       | some t0 => textFalsy t0.text
       | none => true) then [lexloc ++ " example tag without text"] else []
  match ts.head? with
  | none => Except.error PyError.indexError
  | some t0 =>
    Except.ok (exampleNode.children.foldl (fun (acc : ExampleOut × List String) c =>
      if c.tag == "text" then acc
      else if c.tag == "exframe" then
        let d2 := if acc.1.exframe.isSome then
          [lexloc ++ " more than one exframe for example"] else []
        let d3 := warn_attribs lexloc c [] []
        if textFalsy c.text then
          (acc.1, acc.2 ++ d2 ++ d3 ++ [lexloc ++ " exframe with no text"])
        else ({ acc.1 with exframe := some (pyStr c.text) }, acc.2 ++ d2 ++ d3)
      else (acc.1, acc.2 ++ [lexloc ++ " unrecognised child of example"]))
      ({ text := pyStr t0.text, exframe := none }, d1))

/-- Parsing of one frame element: returns the frame string when the text
is present, and the diagnostics. -/
def read_frame (lexloc : String) (frame : XmlNode) : Option String × List String :=
  let d1 := warn_attribs lexloc frame [] []
  let d2 := if frame.children.length > 0 then
    [lexloc ++ " unrecognised frame children"] else []
  if textFalsy frame.text then (none, d1 ++ d2 ++ [lexloc ++ " frame without text"])
  else (some (pyStr frame.text), d1 ++ d2)

/-- Parsing of one compound element.  The source builds a compound dict
of the modifier and head children but never stores it on the lexunit, so
only the diagnostics are observable. -/
def read_compound (lexloc : String) (compound : XmlNode) : List String :=
  let d0 := warn_attribs lexloc compound [] []
  (compound.children.foldl (fun (acc : Bool × List String) c =>
    if c.tag == "modifier" then
      let dw := warn_attribs lexloc c MODIFIER_ATTRIBS []
      if textFalsy c.text then (acc.1, acc.2 ++ dw ++ [lexloc ++ " modifier without text"])
      else (acc.1, acc.2 ++ dw)
    else if c.tag == "head" then
      let dw := warn_attribs lexloc c HEAD_ATTRIBS []
      if textFalsy c.text then (acc.1, acc.2 ++ dw ++ [lexloc ++ " head without text"])
      else
        let dd := if acc.1 then [lexloc ++ " more than one head in compound"] else []
        (true, acc.2 ++ dw ++ dd)
    else (acc.1, acc.2 ++ [lexloc ++ " unrecognised child of compound"])) (false, d0)).2

/-- The loop over the children of a lexUnit element. -/
def read_lexunit_children (lexloc : String) (lu0 : LexUnitOut) (children : List XmlNode) :
    Except PyError (LexUnitOut × List String) :=
  foldlME (fun (acc : LexUnitOut × List String) c =>
    if ORTH_TAGS.contains c.tag then
      let dw := warn_attribs lexloc c [] []
      if textFalsy c.text then
        Except.ok (acc.1, acc.2 ++ dw ++ [lexloc ++ " orth tag with no text"])
      else
        let dd := if (acc.1.orth.lookup c.tag).isSome then
          [lexloc ++ " more than one orth tag"] else []
        Except.ok ({ acc.1 with orth := setKey acc.1.orth c.tag (pyStr c.text) },
          acc.2 ++ dw ++ dd)
    else if c.tag == "example" then
      match read_example lexloc c with
      | Except.error e => Except.error e
      | Except.ok (ex, ds) =>
        Except.ok ({ acc.1 with examples := acc.1.examples ++ [ex] }, acc.2 ++ ds)
    else if c.tag == "frame" then
      match read_frame lexloc c with
      | (some f, ds) => Except.ok ({ acc.1 with frames := acc.1.frames ++ [f] }, acc.2 ++ ds)
      | (none, ds) => Except.ok (acc.1, acc.2 ++ ds)
    else if c.tag == "compound" then
      Except.ok (acc.1, acc.2 ++ read_compound lexloc c)
    else
      Except.ok (acc.1, acc.2 ++ [lexloc ++ " unrecognised child of lexUnit"]))
    (lu0, []) children

/-- Parsing of one lexUnit element: attribute checks, the boolean and
sense conversions, then the child loop. -/
def read_lexunit (synloc : String) (lexunit : XmlNode) :
    Except PyError (LexUnitOut × List String) :=
  let lexloc := synloc ++ " lexUnit"
  let dw := warn_attribs lexloc lexunit LEXUNIT_ATTRIBS LEXUNIT_ATTRIBS
  let d0 := lexunit.attribs.map (fun e => (e.1, AttrVal.str e.2))
  let (d1, ds1) := convert_bool_key lexloc d0 "styleMarking"
  let (d2, ds2) := convert_bool_key lexloc d1 "artificial"
  let (d3, ds3) := convert_bool_key lexloc d2 "namedEntity"
  let (d4, ds4) := convert_sense lexloc d3
  match read_lexunit_children lexloc
      { attrs := d4, orth := [], examples := [], frames := [] } lexunit.children with
  | Except.error e => Except.error e
  | Except.ok (lu, ds5) => Except.ok (lu, dw ++ ds1 ++ ds2 ++ ds3 ++ ds4 ++ ds5)

/-- Parsing of one synset element: attribute checks, then the loop over
lexUnit and paraphrase children. -/
def read_synset (filename : String) (synset : XmlNode) :
    Except PyError (SynsetOut × List String) :=
  let synloc := filename ++ " synset"
  let dw := warn_attribs synloc synset SYNSET_ATTRIBS SYNSET_ATTRIBS
  match foldlME (fun (acc : List LexUnitOut × List String) c =>
      if c.tag == "lexUnit" then
        match read_lexunit synloc c with
        | Except.error e => Except.error e
        | Except.ok (lu, ds) => Except.ok (acc.1 ++ [lu], acc.2 ++ ds)
      else if c.tag == "paraphrase" then
        let dp := warn_attribs synloc c [] []
        let dt := if pyStr c.text == "" then [synloc ++ " paraphrase tag with no text"] else []
        Except.ok (acc.1, acc.2 ++ dp ++ dt)
      else
        Except.ok (acc.1, acc.2 ++ [synloc ++ " unrecognised child of synset"]))
      ([], []) synset.children with
  | Except.error e => Except.error e
  | Except.ok (lus, ds) => Except.ok ({ attrs := synset.attribs, lexunits := lus }, dw ++ ds)

/-- read_lexical_file of mongo_import.py: asserts the synsets root tag,
diagnoses and skips non-synset children, and parses each synset
element. -/
def read_lexical_file (filename : String) (doc : XmlNode) :
    Except PyError (List SynsetOut × List String) :=
  if doc.tag != "synsets" then Except.error PyError.assertionError
  else
    foldlME (fun (acc : List SynsetOut × List String) child =>
      if child.tag != "synset" then
        Except.ok (acc.1, acc.2 ++ ["unrecognised child of synsets"])
      else
        match read_synset filename child with
        | Except.error e => Except.error e
        | Except.ok (so, ds) => Except.ok (acc.1 ++ [so], acc.2 ++ ds))
      ([], []) doc.children

/-- Safety of one lexUnit child: every example element among its children
has at least one text child (the one condition under which read_example
cannot raise). -/
def lexunit_examples_safe (lu : XmlNode) : Bool :=
  lu.children.all (fun c =>
    !(c.tag == "example") || c.children.any (fun t => t.tag == "text"))

/-- Safety of one synset element: every nested lexUnit is safe. -/
def synset_examples_safe (syn : XmlNode) : Bool :=
  syn.children.all (fun c => !(c.tag == "lexUnit") || lexunit_examples_safe c)

/-- Safety of a whole lexical file document. -/
def lexfile_examples_safe (doc : XmlNode) : Bool :=
  doc.children.all (fun c => !(c.tag == "synset") || synset_examples_safe c)

/-- A relations document whose only lex_rel child lacks the dir
attribute. -/
def relDocNoDir : XmlNode :=
  XmlNode.mk "relations" [] none
    [XmlNode.mk "lex_rel" [("from", "a"), ("name", "r"), ("to", "b")] none []]

/-- A relations document whose only lex_rel child has dir but no name:
the reader only diagnoses the missing attribute. -/
def relDocNoName : XmlNode :=
  XmlNode.mk "relations" [] none
    [XmlNode.mk "lex_rel" [("dir", "one"), ("from", "a"), ("to", "b")] none []]

/-- A wiktionaryParaphrases document whose only child lacks the edited
attribute. -/
def paraDocNoEdited : XmlNode :=
  XmlNode.mk "wiktionaryParaphrases" [] none
    [XmlNode.mk "wiktionaryParaphrase"
      [("lexUnitId", "l1"), ("wiktionaryId", "w1"), ("wiktionarySense", "s"),
       ("wiktionarySenseId", "3")] none []]

/-- A lexical file document whose only example element has no text
child. -/
def lexDocExampleNoText : XmlNode :=
  XmlNode.mk "synsets" [] none
    [XmlNode.mk "synset" [("category", "nomen"), ("id", "s1"), ("class", "Ding")] none
      [XmlNode.mk "lexUnit"
        [("styleMarking", "no"), ("namedEntity", "no"), ("artificial", "no"),
         ("source", "core"), ("sense", "1"), ("id", "l1")] none
        [XmlNode.mk "orthForm" [] (some "Hund") [],
         XmlNode.mk "example" [] none [XmlNode.mk "exframe" [] (some "NN") []]]]]

/-- A well-formed one-synset lexical file document. -/
def lexDocGood : XmlNode :=
  XmlNode.mk "synsets" [] none
    [XmlNode.mk "synset" [("category", "nomen"), ("id", "s1"), ("class", "Ding")] none
      [XmlNode.mk "lexUnit"
        [("styleMarking", "no"), ("namedEntity", "no"), ("artificial", "no"),
         ("source", "core"), ("sense", "1"), ("id", "l1")] none
        [XmlNode.mk "orthForm" [] (some "Hund") [],
         XmlNode.mk "example" [] none
           [XmlNode.mk "text" [] (some "Der Hund bellt.") []]]]]

/-- A relations document with one complete lex_rel child. -/
def relDocGood : XmlNode :=
  XmlNode.mk "relations" [] none
    [XmlNode.mk "lex_rel"
      [("dir", "both"), ("from", "a"), ("inv", "has_antonym"),
       ("name", "has_antonym"), ("to", "b")] none []]

/-- A wiktionaryParaphrases document with one complete child. -/
def paraDocGood : XmlNode :=
  XmlNode.mk "wiktionaryParaphrases" [] none
    [XmlNode.mk "wiktionaryParaphrase"
      [("edited", "no"), ("lexUnitId", "l1"), ("wiktionaryId", "w1"),
       ("wiktionarySense", "s"), ("wiktionarySenseId", "3")] none []]

/-- Reading the lexunits or synsets cache of insert_relation_information:
a cache hit returns the cached value (which can be a recorded miss, i.e.
None), a cache miss runs find_one on the collection and records the
result. -/
def cacheGet {α : Type} (recs : List α) (extId : α → String)
    (cache : List (String × Option α)) (k : String) :
    List (String × Option α) × Option α :=
  match cache.lookup k with
  | some v => (cache, v)
  | none =>
    let v := recs.find? (fun r => extId r == k)
    (cache ++ [(k, v)], v)

/-- In-place mutation of a cached document, keyed by external id. -/
def cacheSet {α : Type} (cache : List (String × Option α)) (k : String) (v : α) :
    List (String × Option α) :=
  cache.map (fun e => if e.1 == k then (k, some v) else e)

/-- Set insertion into a rels set: the Python code stores rels as a set of
(name, ObjectId) pairs, so adding an existing pair is a no-op. -/
def addRel (rels : List (String × Nat)) (e : String × Nat) : List (String × Nat) :=
  if rels.contains e then rels else rels ++ [e]

/-- Sort order of the stored rels lists: Python sorted() on (name,
ObjectId) tuples. -/
def relLe (e1 e2 : String × Nat) : Bool :=
  (compare e1.1 e2.1).isLT || (e1.1 == e2.1 && Nat.ble e1.2 e2.2)

/-- One iteration of a relation-wiring loop of
insert_relation_information, on the relation dict rel: resolve the from
and to external ids through the cache (a missing document is cached as
None); dereferencing a None from-record or to-record raises TypeError
exactly where the Python code checks for the rels key or reads the target
ObjectId; add the forward (name, to-oid) edge to the from-record; and
when dir is in invDirs add the inverse (inv, from-oid) edge to the
to-record (rereading the cache, since from and to may alias the same
document).  Missing dict keys raise KeyError in source order: from, to,
name, dir, inv. -/
def wireStep {α : Type} (oidf : α → Nat) (extId : α → String)
    (getRels : α → List (String × Nat)) (setRels : α → List (String × Nat) → α)
    (invDirs : List String) (recs : List α)
    (cache : List (String × Option α)) (rel : List (String × String)) :
    Except PyError (List (String × Option α)) :=
  match rel.lookup "from" with
  | none => Except.error PyError.keyError
  | some fromId =>
    let c1 := cacheGet recs extId cache fromId
    match rel.lookup "to" with
    | none => Except.error PyError.keyError
    | some toId =>
      let c2 := cacheGet recs extId c1.1 toId
      match c1.2 with
      | none => Except.error PyError.typeError
      | some fu =>
        match rel.lookup "name" with
        | none => Except.error PyError.keyError
        | some name =>
          match c2.2 with
          | none => Except.error PyError.typeError
          | some tu =>
            let fu2 := setRels fu (addRel (getRels fu) (name, oidf tu))
            let cache2 := cacheSet c2.1 fromId fu2
            match rel.lookup "dir" with
            | none => Except.error PyError.keyError
            | some dir =>
              if invDirs.contains dir then
                match rel.lookup "inv" with
                | none => Except.error PyError.keyError
                | some inv =>
                  let tu2 := match cache2.lookup toId with
                    | some (some u) => u
                    | _ => tu
                  let tu3 := setRels tu2 (addRel (getRels tu2) (inv, oidf fu))
                  Except.ok (cacheSet cache2 toId tu3)
              else Except.ok cache2

/-- The save loop at the end of each wiring pass: every cached document is
written back over the collection document with the same ObjectId, with
its rels set converted to a sorted list.  (The source only saves
documents carrying a rels key; saving an untouched document unchanged is
observationally the same on this model, where rels always exists.) -/
def saveRels {α : Type} (oidf : α → Nat)
    (getRels : α → List (String × Nat)) (setRels : α → List (String × Nat) → α) :
    List α → List (String × Option α) → List α
  | recs, [] => recs
  | recs, (_, none) :: rest => saveRels oidf getRels setRels recs rest
  | recs, (_, some u) :: rest =>
    saveRels oidf getRels setRels (recs.map (fun r =>
      if oidf r == oidf u then setRels u (sortLe relLe (getRels u)) else r)) rest

/-- insert_relation_information of mongo_import.py, applied to the parsed
relation dicts (read_relation_file models the parsing): first wire all
lex_rel edges over the lexunits collection, the inverse edge being added
when dir is both; then wire all con_rel edges over the synsets
collection, the inverse edge being added when dir is both or revert; each
pass saves its touched documents at the end. -/
def insert_relation_information (db : DB)
    (lex_rels con_rels : List (List (String × String))) : Except PyError DB :=
  match foldlME (wireStep LexUni.oid LexUni.id LexUni.rels
      (fun u rs => { u with rels := rs }) ["both"] db.lexunits) [] lex_rels with
  | Except.error e => Except.error e
  | Except.ok lexCache =>
    let lexunits2 := saveRels LexUni.oid LexUni.rels
      (fun u rs => { u with rels := rs }) db.lexunits lexCache
    match foldlME (wireStep Synset.oid Synset.id Synset.rels
        (fun u rs => { u with rels := rs }) ["both", "revert"] db.synsets) [] con_rels with
    | Except.error e => Except.error e
    | Except.ok synCache =>
      let synsets2 := saveRels Synset.oid Synset.rels
        (fun u rs => { u with rels := rs }) db.synsets synCache
      Except.ok { db with lexunits := lexunits2, synsets := synsets2 }

/-- Lemma.rels with a relation name: the list of Lemma objects reachable
through edges with that name, each edge target resolved through
get_lemma_by_id, which yields None for a dangling ObjectId. -/
def LexUni.rels_by_name (db : DB) (u : LexUni) (relName : String) :
    List (Option LexUni) :=
  u.rels.filterMap (fun e =>
    if e.1 == relName then some (db.find_lexunit e.2) else none)

/-- One iteration of insert_paraphrase_information: resolve the
lexUnitId external id through the cache; appending to the paraphrases
list of a None record raises TypeError; otherwise the paraphrase dict is
appended to the record's paraphrases list. -/
def paraphraseStep (recs : List LexUni) (cache : List (String × Option LexUni))
    (para : List (String × AttrVal)) :
    Except PyError (List (String × Option LexUni)) :=
  match para.lookup "lexUnitId" with
  | none => Except.error PyError.keyError
  | some v =>
    match v with
    | AttrVal.str key =>
      let c := cacheGet recs LexUni.id cache key
      match c.2 with
      | none => Except.error PyError.typeError
      | some u => Except.ok (cacheSet c.1 key { u with paraphrases := u.paraphrases ++ [para] })
    | _ => Except.error PyError.typeError

/-- insert_paraphrase_information of mongo_import.py, applied to the
parsed paraphrase dicts: append each paraphrase to its owning lexical
unit, resolved by external id through a cache, then save every touched
unit. -/
def insert_paraphrase_information (db : DB)
    (paraphrases : List (List (String × AttrVal))) : Except PyError DB :=
  match foldlME (paraphraseStep db.lexunits) [] paraphrases with
  | Except.error e => Except.error e
  | Except.ok cache =>
    let lexunits2 := cache.foldl (fun recs e =>
      match e.2 with
      | some u => recs.map (fun r => if r.oid == u.oid then u else r)
      | none => recs) db.lexunits
    Except.ok { db with lexunits := lexunits2 }

/-- A lexical unit with no relations, for concrete instances. -/
def luA : LexUni :=
  { oid := 1, id := "l1", orthForm := "hell", orthVar := none, oldOrthForm := none,
    oldOrthVar := none, category := "adj", sense := 1, synset := 100, rels := [],
    paraphrases := [] }

/-- A second lexical unit with no relations, for concrete instances. -/
def luB : LexUni :=
  { oid := 2, id := "l2", orthForm := "dunkel", orthVar := none, oldOrthForm := none,
    oldOrthVar := none, category := "adj", sense := 1, synset := 101, rels := [],
    paraphrases := [] }

/-- A database holding the two lexical units. -/
def dbAB : DB := { synsets := [], lexunits := [luA, luB], max_min_depths := [] }

/-- The antonymy record between luA and luB with dir both. -/
def relAB : List (String × String) :=
  [("dir", "both"), ("from", "l1"), ("inv", "has_antonym"),
   ("name", "has_antonym"), ("to", "l2")]

/-- A lex_rel whose from id resolves to no document. -/
def relDangling : List (String × String) :=
  [("dir", "one"), ("from", "nosuch"), ("name", "has_antonym"), ("to", "l2")]

/-- A paraphrase dict whose lexUnitId resolves to no document. -/
def paraDangling : List (String × AttrVal) :=
  [("edited", AttrVal.bool false), ("lexUnitId", AttrVal.str "nosuch"),
   ("wiktionaryId", AttrVal.str "w1"), ("wiktionarySense", AttrVal.str "s"),
   ("wiktionarySenseId", AttrVal.int 3)]

/-- The property that the relation-wiring invariant tracks for one cached
document: some collection document has its ObjectId, and each of its
edges either already existed on that document or points at the ObjectId
of some collection document. -/
def recFact {α : Type} (oidf : α → Nat) (getRels : α → List (String × Nat))
    (recs : List α) (u : α) : Prop :=
  ∃ r ∈ recs, oidf r = oidf u ∧
    ∀ e ∈ getRels u, e ∈ getRels r ∨ ∃ t ∈ recs, oidf t = e.2

/-- The relation-wiring invariant: every cached document satisfies
recFact. -/
def cacheInv {α : Type} (oidf : α → Nat) (getRels : α → List (String × Nat))
    (recs : List α) (cache : List (String × Option α)) : Prop :=
  ∀ k u, (k, some u) ∈ cache → recFact oidf getRels recs u

/-- One iteration of the count-file loop of insert_infocontent_data: lines
without exactly three fields are skipped; int(count) raises on a
non-numeric count; synsets are looked up through GermaNet.synsets (whose
exceptions propagate); lines matching no synset are skipped; otherwise
the count is divided by the number of matching synsets, and for each
matching synset the share is added to total_count and divided again by
its number of hypernym paths, that sub-share being added to the
accumulator of every synset on every path. -/
def infocont_line_step (db : DB) (fuel : Nat) (st : (Nat → ℚ) × ℚ) (line : List String) :
    Except PyError ((Nat → ℚ) × ℚ) :=
  match line with
  | [countS, posS, word] =>
    match pyInt countS with
    | Except.error e => Except.error e
    | Except.ok count =>
      match GermaNet.synsets db word (some posS) with
      | Except.error e => Except.error e
      | Except.ok sids =>
        if sids.isEmpty then Except.ok st
        else
          let c : ℚ := (count : ℚ) / (sids.length : ℚ)
          foldlME (fun st2 sid =>
            match db.find_synset sid with
            | none => Except.error PyError.typeError
            | some s =>
              match Synset.hypernym_paths db fuel s with
              | Except.error e => Except.error e
              | Except.ok paths =>
                let scount := c / (paths.length : ℚ)
                Except.ok
                  (paths.foldl (fun counts p =>
                    p.foldl (fun counts ss =>
                      Function.update counts ss (counts ss + scount)) counts) st2.1,
                   st2.2 + c)) st sids
  | _ => Except.ok st

/-- insert_infocontent_data of mongo_import.py on the already-split count
file lines: the per-synset accumulator starts at the constant function 1
(add-one smoothing via defaultdict) and total_count starts at 1; after
the loop, every synset document is saved with
infocont = accumulator(oid) / total_count.  Returns the updated synsets
collection together with the final accumulator and total. -/
def insert_infocontent_data (db : DB) (fuel : Nat) (lines : List (List String)) :
    Except PyError (List Synset × (Nat → ℚ) × ℚ) :=
  match foldlME (infocont_line_step db fuel) ((fun _ => 1), 1) lines with
  | Except.error e => Except.error e
  | Except.ok st =>
    Except.ok (db.synsets.map (fun s => { s with infocont := st.1 s.oid / st.2 }), st.1, st.2)

/-- The root of the two-synset information-content scenario. -/
def synR : Synset :=
  { oid := 0, id := "sR", category := "nomen", infocont := 0, lexunits := [10], rels := [] }

/-- The child of the two-synset information-content scenario, whose only
hypernym is the root. -/
def synC : Synset :=
  { oid := 1, id := "sC", category := "nomen", infocont := 0, lexunits := [11],
    rels := [("has_hypernym", 0)] }

/-- An untouched synset outside the two-synset hierarchy. -/
def synU : Synset :=
  { oid := 2, id := "sU", category := "nomen", infocont := 0, lexunits := [], rels := [] }

/-- The lexical unit Hund whose only synset is the child synC. -/
def luHund : LexUni :=
  { oid := 11, id := "lH", orthForm := "Hund", orthVar := none, oldOrthForm := none,
    oldOrthVar := none, category := "nomen", sense := 1, synset := 1, rels := [],
    paraphrases := [] }

/-- The database of the information-content scenario. -/
def dbIC : DB := { synsets := [synR, synC, synU], lexunits := [luHund], max_min_depths := [] }

/-- A root synset for the depth counterexample. -/
def sRoot : Synset :=
  { oid := 20, id := "root", category := "nomen", infocont := 0, lexunits := [], rels := [] }

/-- A synset one step below the root. -/
def sMid : Synset :=
  { oid := 21, id := "mid", category := "nomen", infocont := 0, lexunits := [],
    rels := [("has_hypernym", 20)] }

/-- A synset two steps below the root; a hypernym of sA. -/
def sB : Synset :=
  { oid := 22, id := "deep", category := "nomen", infocont := 0, lexunits := [],
    rels := [("has_hypernym", 21)] }

/-- A synset with two hypernyms: the deep synset sB and the root itself,
so its min_depth is 2 while the hypernym sB has min_depth 3. -/
def sA : Synset :=
  { oid := 23, id := "low", category := "nomen", infocont := 0, lexunits := [],
    rels := [("has_hypernym", 22), ("has_hypernym", 20)] }

/-- A database whose hypernym structure is a DAG, not a tree. -/
def dbDeep : DB :=
  { synsets := [sRoot, sMid, sB, sA], lexunits := [], max_min_depths := [] }

/-- A synset whose infocont is exactly 1, as the GNROOT of a full import
ends up with. -/
def synFull : Synset :=
  { oid := 30, id := "full", category := "nomen", infocont := 1, lexunits := [], rels := [] }

/-- A database holding only synFull. -/
def dbFull : DB := { synsets := [synFull], lexunits := [], max_min_depths := [] }

/-- A database holding only the plain noun synset. -/
def dbSelf : DB := { synsets := [synNoun], lexunits := [], max_min_depths := [] }

/-- The first lexical unit after the antonymy import. -/
def luA2 : LexUni := { luA with rels := [("has_antonym", 2)] }

/-- The second lexical unit after the antonymy import. -/
def luB2 : LexUni := { luB with rels := [("has_antonym", 1)] }

/-- The database after importing the antonymy record. -/
def dbAB2 : DB := { synsets := [], lexunits := [luA2, luB2], max_min_depths := [] }

/-- Claim C1 (amended): for a part-of-speech code other than n, v, j,
GermaNet.lemmas returns None (no result, no error), and GermaNet.synsets,
which iterates that None, raises TypeError rather than returning an empty
result. -/
theorem C1_unknown_pos_lemmas_absent_synsets_raise
    (db : DB) (lemmaStr : String) (p : String)
    (hn : p ≠ "n") (hv : p ≠ "v") (hj : p ≠ "j") :
    GermaNet.lemmas db lemmaStr (some p) = none ∧
    GermaNet.synsets db lemmaStr (some p) = Except.error PyError.typeError := by
  have hlook : SHORT_POS_TO_LONG.lookup p = none := by
    have h1 : (p == "v") = false := beq_eq_false_iff_ne.mpr hv
    have h2 : (p == "n") = false := beq_eq_false_iff_ne.mpr hn
    have h3 : (p == "j") = false := beq_eq_false_iff_ne.mpr hj
    simp [SHORT_POS_TO_LONG, List.lookup, h1, h2, h3]
  constructor
  · simp [GermaNet.lemmas, hlook]
  · simp [GermaNet.synsets, GermaNet.lemmas, hlook]

/-- Witness for C1: the theorem applied at the concrete code x. -/
theorem C1_witness :
    GermaNet.lemmas dbEmpty "Hund" (some "x") = none ∧
    GermaNet.synsets dbEmpty "Hund" (some "x") = Except.error PyError.typeError :=
  C1_unknown_pos_lemmas_absent_synsets_raise dbEmpty "Hund" "x"
    (by decide) (by decide) (by decide)

/-- Counterexample to C1 as stated: at the concrete unrecognized code x the
lemma lookup is indeed absent, but the derived synset lookup raises
(TypeError), it does not return an empty result. -/
theorem C1_counterexample :
    GermaNet.lemmas dbEmpty "Hund" (some "x") = none ∧
    exceptOk (GermaNet.synsets dbEmpty "Hund" (some "x")) = false := by
  constructor <;> rfl

/-- Claim C3 (amended): for a value that is not a Synset, sim_lch and
sim_res return 0 (their isinstance guards), but dist_jcn and sim_lin read
the infocont attribute of the argument before any type check and raise
AttributeError instead of returning 0. -/
theorem C3_non_synset_arguments
    (db : DB) (fuel : Nat) (a : Synset) :
    Synset.sim_lch db fuel a PyVal.nonSynset = Except.ok 0 ∧
    Synset.sim_res db fuel a PyVal.nonSynset = Except.ok 0 ∧
    Synset.dist_jcn db fuel a PyVal.nonSynset = Except.error PyError.attributeError ∧
    Synset.sim_lin db fuel a PyVal.nonSynset = Except.error PyError.attributeError := by
  refine ⟨rfl, rfl, rfl, rfl⟩

/-- Counterexample to C3 as stated: at a concrete synset and a concrete
non-Synset value, dist_jcn raises AttributeError, it does not return 0. -/
theorem C3_counterexample :
    Synset.dist_jcn dbEmpty 1 synNoun PyVal.nonSynset
        = Except.error PyError.attributeError ∧
    Synset.dist_jcn dbEmpty 1 synNoun PyVal.nonSynset ≠ Except.ok 0 := by
  exact ⟨rfl, fun h => Except.noConfusion h⟩

/-- Claim C4 (amended): sim_lch returns 0 for any pair of synsets whose
categories differ; sim_res has no category guard, and returns 0 for such
a pair exactly in the data-dependent case that the pair has no common
hypernym (or none with nonzero infocont). -/
theorem C4_cross_category
    (db : DB) (fuel : Nat) (a b : Synset) :
    (a.category ≠ b.category → Synset.sim_lch db fuel a (PyVal.syn b) = Except.ok 0) ∧
    (Synset.common_hypernyms_dists db fuel a b = Except.ok [] →
      Synset.sim_res db fuel a (PyVal.syn b) = Except.ok 0) := by
  constructor
  · intro h
    simp [Synset.sim_lch, h]
  · intro h
    simp [Synset.sim_res, Synset.nearest_common_hypernyms, h, listMin]

/-- Witness for C4: the theorem applied to concrete same-shape synsets of
different categories with no common hypernym. -/
theorem C4_witness :
    Synset.sim_lch dbEmpty 1 synNoun (PyVal.syn synVerb) = Except.ok 0 ∧
    Synset.sim_res dbEmpty 1 synNoun (PyVal.syn synVerb) = Except.ok 0 := by
  have h := C4_cross_category dbEmpty 1 synNoun synVerb
  exact ⟨h.1 (by decide), h.2 (by rfl)⟩

/-- Counterexample to C4 as stated: in a database where a noun synset and
a verb synset share a hypernym whose infocont is one half, sim_res of the
cross-category pair is -log(1/2), not 0. -/
theorem C4_counterexample :
    nounBelow.category ≠ verbBelow.category ∧
    Synset.sim_res dbCross 3 nounBelow (PyVal.syn verbBelow) ≠ Except.ok 0 := by
  refine ⟨by decide, ?_⟩
  have h1 : Synset.nearest_common_hypernyms dbCross 3 nounBelow verbBelow
      = Except.ok [10] := by rfl
  have h2 : resolveSynsets dbCross [10] = Except.ok [rootShared] := by rfl
  have h3 : ((1 : ℚ)/2 != 0) = true := bne_iff_ne.mpr (by norm_num)
  have hval : Synset.sim_res dbCross 3 nounBelow (PyVal.syn verbBelow)
      = Except.ok (-Real.log ((1/2 : ℚ) : ℝ)) := by
    simp only [Synset.sim_res, h1, h2, rootShared, List.isEmpty, List.map,
      List.filter, h3, listMin, pyNegLog]
    norm_num
  rw [hval]
  intro h
  have h2 : -Real.log ((1/2 : ℚ) : ℝ) = 0 := by
    exact (Except.ok.injEq _ _).mp h
  have h3 : Real.log ((1/2 : ℚ) : ℝ) = 0 := by linarith
  have h4 : ((1/2 : ℚ) : ℝ) = 1/2 := by norm_num
  rw [h4] at h3
  rcases Real.log_eq_zero.mp h3 with h5 | h5 | h5 <;> norm_num at h5

theorem mem_insertLe {α : Type} (le : α → α → Bool) (x a : α) :
    ∀ l : List α, a ∈ insertLe le x l ↔ a = x ∨ a ∈ l
  | [] => by simp [insertLe]
  | y :: ys => by
    by_cases h : le x y = true
    · simp [insertLe, h]
    · simp only [insertLe, if_neg h, List.mem_cons, mem_insertLe le x a ys]
      tauto

theorem mem_sortLe {α : Type} (le : α → α → Bool) (a : α) :
    ∀ l : List α, a ∈ sortLe le l ↔ a ∈ l
  | [] => by simp [sortLe]
  | x :: xs => by
    simp only [sortLe, mem_insertLe, List.mem_cons, mem_sortLe le a xs]

theorem chain_insertLe {α : Type} (le : α → α → Bool)
    (htot : ∀ a b, le a b = true ∨ le b a = true) (x : α) :
    ∀ l : List α, List.Chain' (fun a b => le a b = true) l →
      List.Chain' (fun a b => le a b = true) (insertLe le x l)
  | [], _ => by simp [insertLe]
  | y :: ys, hl => by
    by_cases hxy : le x y = true
    · simp only [insertLe, if_pos hxy]
      exact List.chain'_cons.mpr ⟨hxy, hl⟩
    · simp only [insertLe, if_neg hxy]
      have hyx : le y x = true := (htot x y).resolve_left hxy
      match ys, hl with
      | [], _ => simp [insertLe, List.chain'_cons, hyx]
      | z :: zs, hl =>
        have hyz : le y z = true := (List.chain'_cons.mp hl).1
        have hzs := (List.chain'_cons.mp hl).2
        by_cases hxz : le x z = true
        · simp only [insertLe, if_pos hxz]
          exact List.chain'_cons.mpr ⟨hyx, List.chain'_cons.mpr ⟨hxz, hzs⟩⟩
        · have hrec := chain_insertLe le htot x (z :: zs) hzs
          simp only [insertLe, if_neg hxz] at hrec ⊢
          exact List.chain'_cons.mpr ⟨hyz, hrec⟩

theorem chain_sortLe {α : Type} (le : α → α → Bool)
    (htot : ∀ a b, le a b = true ∨ le b a = true) :
    ∀ l : List α, List.Chain' (fun a b => le a b = true) (sortLe le l)
  | [] => by simp [sortLe]
  | x :: xs => chain_insertLe le htot x _ (chain_sortLe le htot xs)

/-- Claim C9: a four-field line whose tagset label maps to one of n, v, j
and whose canonicalized lemma is a known orthographic form adds its
integer count to the accumulator at (category code, canonical lemma); a
line whose label maps to blank or is unrecognized contributes nothing;
and the emitted table is sorted by descending count. -/
theorem C9_filter_wordcounts
    (gnw : List String) (rw : List (String × String))
    (rc : List ((String × String) × Int)) (countS word posS lemmaS : String)
    (k : Int) (code canon : String) :
    (STTS_GERMANET_MAPPING.lookup posS = some code →
      (["n", "v", "j"] : List String).contains code = true →
      (rw.lookup lemmaS).getD lemmaS = canon →
      gnw.contains canon = true →
      pyInt countS = Except.ok k →
      filter_wordcounts_step gnw rw rc [countS, word, posS, lemmaS]
        = Except.ok (recountsAdd rc (code, canon) k)) ∧
    ((STTS_GERMANET_MAPPING.lookup posS = none ∨
        STTS_GERMANET_MAPPING.lookup posS = some " ") →
      filter_wordcounts_step gnw rw rc [countS, word, posS, lemmaS] = Except.ok rc) ∧
    List.Chain' (fun a b => b.1 ≤ a.1) (filter_wordcounts_output rc) := by
  refine ⟨?_, ?_, ?_⟩
  · intro hlook hcode hcanon hknown hint
    obtain h | h | h : code = "n" ∨ code = "v" ∨ code = "j" := by simpa using hcode
    all_goals
      simp_all [filter_wordcounts_step, hlook, hcanon, hknown, hint]
  · intro hlook
    rcases hlook with h | h <;>
      simp [filter_wordcounts_step, h]
  · have htot : ∀ a b : (String × String) × Int,
        countDescLe a b = true ∨ countDescLe b a = true := by
      intro a b
      simp only [countDescLe, decide_eq_true_eq]
      omega
    have hchain := chain_sortLe countDescLe htot rc
    have := List.chain'_map (f := fun e : (String × String) × Int => (e.2, e.1.1, e.1.2))
      (R := fun a b : Int × String × String => b.1 ≤ a.1)
      (l := sortLe countDescLe rc)
    rw [filter_wordcounts_output, this]
    exact List.Chain'.imp (fun a b hab => by
      simpa [countDescLe] using hab) hchain

/-- Witness for C9: the theorem applied to the concrete NN line with the
rewrite from the variant form to Mann, and to a concrete APPR line. -/
theorem C9_witness :
    filter_wordcounts_step ["Mann"] [("Männer", "Mann")] [] ["10", "Männer", "NN", "Männer"]
      = Except.ok (recountsAdd [] ("n", "Mann") 10) ∧
    filter_wordcounts_step ["Mann"] [("Männer", "Mann")] [] ["7", "im", "APPR", "in"]
      = Except.ok [] := by
  constructor
  · exact (C9_filter_wordcounts ["Mann"] [("Männer", "Mann")] [] "10" "Männer" "NN"
      "Männer" 10 "n" "Mann").1 (by rfl) (by decide) (by rfl) (by decide) (by decide)
  · exact (C9_filter_wordcounts ["Mann"] [("Männer", "Mann")] [] "7" "im" "APPR"
      "in" 0 " " "in").2.1 (Or.inr (by rfl))

theorem foldlME_ok {ε σ α : Type} (f : σ → α → Except ε σ) :
    ∀ (l : List α), (∀ st x, x ∈ l → ∃ st2, f st x = Except.ok st2) →
      ∀ st, ∃ st2, foldlME f st l = Except.ok st2
  | [], _, st => ⟨st, rfl⟩
  | x :: xs, h, st => by
    obtain ⟨st2, h2⟩ := h st x (List.mem_cons_self x xs)
    obtain ⟨st3, h3⟩ := foldlME_ok f xs (fun st y hy => h st y (List.mem_cons_of_mem x hy)) st2
    exact ⟨st3, by simp only [foldlME, h2, h3]⟩

theorem read_example_ok (lexloc : String) (c : XmlNode)
    (h : c.children.any (fun t => t.tag == "text") = true) :
    ∃ r, read_example lexloc c = Except.ok r := by
  have hne : c.children.filter (fun t => t.tag == "text") ≠ [] := by
    intro hnil
    obtain ⟨t, ht, htag⟩ := List.any_eq_true.mp h
    exact (List.filter_eq_nil_iff.mp hnil) t ht htag
  cases hh : (c.children.filter (fun t => t.tag == "text")).head? with
  | none => exact absurd (List.head?_eq_none_iff.mp hh) hne
  | some t0 =>
    simp only [read_example, hh]
    exact ⟨_, rfl⟩

theorem read_lexunit_children_ok (lexloc : String) (lu0 : LexUnitOut)
    (children : List XmlNode)
    (h : ∀ c ∈ children, c.tag == "example" → c.children.any (fun t => t.tag == "text") = true) :
    ∃ r, read_lexunit_children lexloc lu0 children = Except.ok r := by
  apply foldlME_ok
  intro st c hc
  by_cases h1 : c.tag ∈ ORTH_TAGS
  · by_cases h2 : textFalsy c.text = true <;> simp [h1, h2]
  · by_cases h2 : c.tag = "example"
    · obtain ⟨r, hr⟩ := read_example_ok lexloc c (h c hc (by simp [h2]))
      simp [h1, h2, hr, ORTH_TAGS]
    · by_cases h3 : c.tag = "frame"
      · rcases hf : read_frame lexloc c with ⟨fr, ds⟩
        cases fr <;> simp [h1, h2, h3, hf, ORTH_TAGS]
      · simp only [ORTH_TAGS, List.mem_cons, List.not_mem_nil, or_false] at h1
        push_neg at h1
        by_cases h4 : c.tag = "compound" <;>
          simp [ORTH_TAGS, h1.1, h1.2.1, h1.2.2.1, h1.2.2.2, h2, h3, h4]

theorem read_lexunit_ok (synloc : String) (lu : XmlNode)
    (h : lexunit_examples_safe lu = true) :
    ∃ r, read_lexunit synloc lu = Except.ok r := by
  have h2 : ∀ c ∈ lu.children, c.tag == "example" →
      c.children.any (fun t => t.tag == "text") = true := by
    intro c hc htag
    have := List.all_eq_true.mp h c hc
    simpa [htag] using this
  obtain ⟨r, hr⟩ := read_lexunit_children_ok (synloc ++ " lexUnit")
    { attrs := (convert_sense (synloc ++ " lexUnit")
        (convert_bool_key (synloc ++ " lexUnit")
          (convert_bool_key (synloc ++ " lexUnit")
            (convert_bool_key (synloc ++ " lexUnit")
              (lu.attribs.map (fun e => (e.1, AttrVal.str e.2))) "styleMarking").1
            "artificial").1 "namedEntity").1).1,
      orth := [], examples := [], frames := [] } lu.children h2
  simp only [read_lexunit, hr]
  exact ⟨_, rfl⟩

theorem read_synset_ok (filename : String) (syn : XmlNode)
    (h : synset_examples_safe syn = true) :
    ∃ r, read_synset filename syn = Except.ok r := by
  have hstep := foldlME_ok (ε := PyError)
    (f := fun (acc : List LexUnitOut × List String) c =>
      if c.tag == "lexUnit" then
        match read_lexunit (filename ++ " synset") c with
        | Except.error e => Except.error e
        | Except.ok (lu, ds) => Except.ok (acc.1 ++ [lu], acc.2 ++ ds)
      else if c.tag == "paraphrase" then
        let dp := warn_attribs (filename ++ " synset") c [] []
        let dt := if pyStr c.text == "" then
          [(filename ++ " synset") ++ " paraphrase tag with no text"] else []
        Except.ok (acc.1, acc.2 ++ dp ++ dt)
      else
        Except.ok (acc.1, acc.2 ++ [(filename ++ " synset") ++ " unrecognised child of synset"]))
    syn.children ?_ ([], [])
  · obtain ⟨r, hr⟩ := hstep
    simp only [read_synset, hr]
    exact ⟨_, rfl⟩
  · intro st c hc
    by_cases h1 : c.tag = "lexUnit"
    · have hsafe : lexunit_examples_safe c = true := by
        have := List.all_eq_true.mp h c hc
        simpa [h1] using this
      obtain ⟨⟨lu, ds⟩, hr⟩ := read_lexunit_ok (filename ++ " synset") c hsafe
      simp [h1, hr]
    · by_cases h2 : c.tag = "paraphrase" <;> simp [h1, h2]

/-- Claim C2 (amended): for every import input file with the expected root
tag, parsing and validation problems are reported as diagnostics and
processing continues on the remaining fields and children, EXCEPT that
three malformations abort the run with an exception: an example element
with no text child (IndexError in the lexical reader), a lex_rel or
con_rel element without a dir attribute (KeyError in the relation
reader), and a wiktionaryParaphrase element without an edited or
wiktionarySenseId attribute (KeyError in the paraphrase reader).  In the
absence of those three shapes the three readers always return normally;
lesser problems such as a missing required attribute only add a
diagnostic without dropping the record. -/
theorem C2_best_effort_with_exceptions :
    (∀ (fn : String) (doc : XmlNode), doc.tag = "synsets" →
      lexfile_examples_safe doc = true →
      ∃ out, read_lexical_file fn doc = Except.ok out) ∧
    (∀ doc : XmlNode, doc.tag = "relations" →
      (∀ c ∈ doc.children, c.tag = "lex_rel" ∨ c.tag = "con_rel" →
        (c.attribs.lookup "dir").isSome = true) →
      ∃ out, read_relation_file doc = Except.ok out) ∧
    (∀ doc : XmlNode, doc.tag = "wiktionaryParaphrases" →
      (∀ c ∈ doc.children, c.tag = "wiktionaryParaphrase" →
        (c.attribs.lookup "edited").isSome = true ∧
        (c.attribs.lookup "wiktionarySenseId").isSome = true) →
      ∃ out, read_paraphrase_file doc = Except.ok out) ∧
    (∃ out, read_relation_file relDocNoName = Except.ok out ∧
      out.lex_rels.length = 1 ∧ out.diags ≠ []) := by
  refine ⟨?_, ?_, ?_, ?_⟩
  · intro fn doc hroot hsafe
    have hr : (doc.tag != "synsets") = false := by simp [hroot]
    simp only [read_lexical_file, hr, Bool.false_eq_true, if_false]
    apply foldlME_ok
    intro st c hc
    by_cases h1 : (c.tag != "synset") = true
    · simp [h1]
    · have htag : c.tag = "synset" := by simpa using h1
      have hsafe2 : synset_examples_safe c = true := by
        have := List.all_eq_true.mp hsafe c hc
        simpa [htag] using this
      obtain ⟨r, hr2⟩ := read_synset_ok fn c hsafe2
      simp [h1, hr2]
  · intro doc hroot hdir
    have hr : (doc.tag != "relations") = false := by simp [hroot]
    simp only [read_relation_file, hr, Bool.false_eq_true, if_false]
    apply foldlME_ok
    intro st c hc
    by_cases h1 : c.tag = "lex_rel"
    · obtain ⟨dir, hd⟩ := Option.isSome_iff_exists.mp (hdir c hc (Or.inl h1))
      simp [h1, hd]
    · by_cases h2 : c.tag = "con_rel"
      · obtain ⟨dir, hd⟩ := Option.isSome_iff_exists.mp (hdir c hc (Or.inr h2))
        simp [h1, h2, hd]
      · simp [h1, h2]
  · intro doc hroot hattr
    have hr : (doc.tag != "wiktionaryParaphrases") = false := by simp [hroot]
    simp only [read_paraphrase_file, hr, Bool.false_eq_true, if_false]
    apply foldlME_ok
    intro st c hc
    by_cases h1 : c.tag = "wiktionaryParaphrase"
    · obtain ⟨hed, hsid⟩ := hattr c hc h1
      obtain ⟨ed, hd1⟩ := Option.isSome_iff_exists.mp hed
      obtain ⟨sid, hd2⟩ := Option.isSome_iff_exists.mp hsid
      simp [h1, hd1, hd2]
    · simp [h1]
  · exact ⟨_, rfl, rfl, by decide⟩

/-- Witness for C2: the theorem applied to concrete well-formed lexical,
relation and paraphrase documents. -/
theorem C2_witness :
    (∃ out, read_lexical_file "nomen.xml" lexDocGood = Except.ok out) ∧
    (∃ out, read_relation_file relDocGood = Except.ok out) ∧
    (∃ out, read_paraphrase_file paraDocGood = Except.ok out) := by
  refine ⟨C2_best_effort_with_exceptions.1 "nomen.xml" lexDocGood rfl (by decide),
          C2_best_effort_with_exceptions.2.1 relDocGood rfl ?_,
          C2_best_effort_with_exceptions.2.2.1 paraDocGood rfl ?_⟩
  · intro c hc _
    simp only [relDocGood, XmlNode.children, List.mem_singleton] at hc
    subst hc
    decide
  · intro c hc _
    simp only [paraDocGood, XmlNode.children, List.mem_singleton] at hc
    subst hc
    exact ⟨by decide, by decide⟩

/-- Counterexample to C2 as stated: three concrete malformed inputs on
which the readers raise instead of diagnosing and continuing: a lex_rel
without dir raises KeyError, a wiktionaryParaphrase without edited raises
KeyError, and an example element without a text child raises
IndexError. -/
theorem C2_counterexample :
    read_relation_file relDocNoDir = Except.error PyError.keyError ∧
    read_paraphrase_file paraDocNoEdited = Except.error PyError.keyError ∧
    read_lexical_file "nomen.xml" lexDocExampleNoText = Except.error PyError.indexError := by
  refine ⟨rfl, rfl, rfl⟩

theorem mem_addRel (rels : List (String × Nat)) (e : String × Nat) :
    e ∈ addRel rels e := by
  by_cases h : rels.contains e = true
  · simp only [addRel, h, if_true]
    exact List.mem_of_elem_eq_true h
  · simp only [addRel, h, Bool.false_eq_true, if_false]
    exact List.mem_append_right rels (List.mem_singleton.mpr rfl)

theorem mem_addRel_of_mem (rels : List (String × Nat)) (e e2 : String × Nat)
    (h : e ∈ addRel rels e2) : e ∈ rels ∨ e = e2 := by
  by_cases h2 : rels.contains e2 = true
  · simp only [addRel, h2, if_true] at h
    exact Or.inl h
  · simp only [addRel, h2, Bool.false_eq_true, if_false, List.mem_append,
      List.mem_singleton] at h
    exact h

theorem bool_eq_false_of_not {b : Bool} (h : ¬b = true) : b = false := by
  cases b with
  | true => exact absurd rfl h
  | false => rfl

theorem find?_oid_map {α : Type} (oidf : α → Nat) (f : α → α)
    (hf : ∀ r, oidf (f r) = oidf r) (m : Nat) :
    ∀ l : List α, (l.map f).find? (fun r => oidf r == m)
      = (l.find? (fun r => oidf r == m)).map f
  | [] => rfl
  | x :: xs => by
    have hfx : (oidf (f x) == m) = (oidf x == m) := by rw [hf x]
    by_cases h : (oidf x == m) = true
    · simp only [List.map_cons, List.find?, hfx, h]
      rfl
    · have h2 := bool_eq_false_of_not h
      simp only [List.map_cons, List.find?, hfx, h2, find?_oid_map oidf f hf m xs]

theorem find?_oid_self {α : Type} (oidf : α → Nat) :
    ∀ l : List α, (l.map oidf).Nodup → ∀ u : α, u ∈ l →
      l.find? (fun r => oidf r == oidf u) = some u
  | [], _, u, hu => absurd hu (List.not_mem_nil u)
  | x :: xs, hnd, u, hu => by
    rw [List.map_cons] at hnd
    have hhead := (List.nodup_cons.mp hnd).1
    have htail := (List.nodup_cons.mp hnd).2
    by_cases h : (oidf x == oidf u) = true
    · have hxu : x = u := by
        rcases List.mem_cons.mp hu with h2 | h2
        · exact h2.symm
        · exact absurd (beq_iff_eq.mp h ▸ List.mem_map_of_mem oidf h2) hhead
      simp only [List.find?, hxu, beq_self_eq_true]
    · have hu2 : u ∈ xs := by
        rcases List.mem_cons.mp hu with h2 | h2
        · exact absurd (by rw [h2, beq_self_eq_true]) h
        · exact h2
      simp only [List.find?, bool_eq_false_of_not h]
      exact find?_oid_self oidf xs htail u hu2

/-- Claim C8: importing a lex_rel with dir both and name = inv from unit A
to unit B stores the forward edge on A and the inverse edge on B, so that
the rels accessor of each unit under that name contains the other unit. -/
theorem C8_lex_rel_both_symmetric
    (db : DB) (a b nm : String) (A B : LexUni)
    (hA : db.lexunits.find? (fun u => u.id == a) = some A)
    (hB : db.lexunits.find? (fun u => u.id == b) = some B)
    (hab : a ≠ b)
    (hNodup : (db.lexunits.map LexUni.oid).Nodup)
    (rel : List (String × String))
    (hfrom : rel.lookup "from" = some a) (hto : rel.lookup "to" = some b)
    (hname : rel.lookup "name" = some nm) (hinv : rel.lookup "inv" = some nm)
    (hdir : rel.lookup "dir" = some "both") :
    ∃ db2 A2 B2,
      insert_relation_information db [rel] [] = Except.ok db2 ∧
      db2.lexunits.find? (fun u => u.oid == A.oid) = some A2 ∧
      db2.lexunits.find? (fun u => u.oid == B.oid) = some B2 ∧
      (nm, B.oid) ∈ A2.rels ∧ (nm, A.oid) ∈ B2.rels ∧
      (∃ u, some u ∈ LexUni.rels_by_name db2 A2 nm ∧ u.oid = B.oid) ∧
      (∃ u, some u ∈ LexUni.rels_by_name db2 B2 nm ∧ u.oid = A.oid) := by
  have hAmem := List.mem_of_find?_eq_some hA
  have hBmem := List.mem_of_find?_eq_some hB
  have hAid : A.id = a := by
    have := List.find?_some hA
    simpa using this
  have hBid : B.id = b := by
    have := List.find?_some hB
    simpa using this
  have hABne : A ≠ B := by
    intro h
    exact hab (by rw [← hAid, ← hBid, h])
  have hoid : A.oid ≠ B.oid := by
    intro h
    exact hABne (List.inj_on_of_nodup_map hNodup hAmem hBmem h)
  have hba : (b == a) = false := beq_eq_false_iff_ne.mpr (Ne.symm hab)
  have hab2 : (a == b) = false := beq_eq_false_iff_ne.mpr hab
  have haa : (a == a) = true := beq_self_eq_true a
  have hbb : (b == b) = true := beq_self_eq_true b
  have hcont : (["both"] : List String).contains "both" = true := by decide
  have hstep : wireStep LexUni.oid LexUni.id LexUni.rels
      (fun u rs => { u with rels := rs }) ["both"] db.lexunits [] rel
      = Except.ok [(a, some { A with rels := addRel A.rels (nm, B.oid) }),
                   (b, some { B with rels := addRel B.rels (nm, A.oid) })] := by
    simp only [wireStep, hfrom, hto, hname, hdir, hinv, cacheGet, cacheSet,
      List.lookup, hA, hB, hba, hab2, haa, hbb, hcont, List.map, if_true,
      Bool.false_eq_true, if_false]
  have hfold : foldlME (wireStep LexUni.oid LexUni.id LexUni.rels
      (fun u rs => { u with rels := rs }) ["both"] db.lexunits) [] [rel]
      = Except.ok [(a, some { A with rels := addRel A.rels (nm, B.oid) }),
                   (b, some { B with rels := addRel B.rels (nm, A.oid) })] := by
    simp only [foldlME, hstep]
  have hoidA : ∀ r : LexUni,
      LexUni.oid (if r.oid == A.oid then
        { A with rels := sortLe relLe (addRel A.rels (nm, B.oid)) } else r) = LexUni.oid r := by
    intro r
    by_cases h : (r.oid == A.oid) = true
    · rw [if_pos h]
      exact (beq_iff_eq.mp h).symm
    · rw [if_neg h]
  have hoidB : ∀ r : LexUni,
      LexUni.oid (if r.oid == B.oid then
        { B with rels := sortLe relLe (addRel B.rels (nm, A.oid)) } else r) = LexUni.oid r := by
    intro r
    by_cases h : (r.oid == B.oid) = true
    · rw [if_pos h]
      exact (beq_iff_eq.mp h).symm
    · rw [if_neg h]
  -- the saved collection
  set A2 := { A with rels := sortLe relLe (addRel A.rels (nm, B.oid)) } with hA2
  set B2 := { B with rels := sortLe relLe (addRel B.rels (nm, A.oid)) } with hB2
  have hsave : saveRels LexUni.oid LexUni.rels (fun u rs => { u with rels := rs })
      db.lexunits
      [(a, some { A with rels := addRel A.rels (nm, B.oid) }),
       (b, some { B with rels := addRel B.rels (nm, A.oid) })]
      = (db.lexunits.map (fun r => if r.oid == A.oid then A2 else r)).map
          (fun r => if r.oid == B.oid then B2 else r) := by
    simp only [saveRels, hA2, hB2]
  have hfind1 : (db.lexunits.map (fun r => if r.oid == A.oid then A2 else r)).find?
      (fun r => r.oid == A.oid) = some A2 := by
    have := find?_oid_map LexUni.oid (fun r => if r.oid == A.oid then A2 else r) hoidA
      A.oid db.lexunits
    rw [this, find?_oid_self LexUni.oid db.lexunits hNodup A hAmem]
    simp only [Option.map_some']
    rw [if_pos (by simp)]
  have hfind2 : (db.lexunits.map (fun r => if r.oid == A.oid then A2 else r)).find?
      (fun r => r.oid == B.oid) = some B := by
    have := find?_oid_map LexUni.oid (fun r => if r.oid == A.oid then A2 else r) hoidA
      B.oid db.lexunits
    rw [this, find?_oid_self LexUni.oid db.lexunits hNodup B hBmem]
    simp only [Option.map_some']
    rw [if_neg (by simpa using Ne.symm hoid)]
  have hfindA : ((db.lexunits.map (fun r => if r.oid == A.oid then A2 else r)).map
      (fun r => if r.oid == B.oid then B2 else r)).find? (fun r => r.oid == A.oid)
      = some A2 := by
    have hnd2 : ((db.lexunits.map (fun r => if r.oid == A.oid then A2 else r)).map
        LexUni.oid).Nodup := by
      have : (db.lexunits.map (fun r => if r.oid == A.oid then A2 else r)).map LexUni.oid
          = db.lexunits.map LexUni.oid := by
        rw [List.map_map]
        exact List.map_congr_left (fun r _ => hoidA r)
      rw [this]
      exact hNodup
    have := find?_oid_map LexUni.oid (fun r => if r.oid == B.oid then B2 else r) hoidB
      A.oid (db.lexunits.map (fun r => if r.oid == A.oid then A2 else r))
    rw [this, hfind1]
    simp only [Option.map_some']
    rw [if_neg (by simpa using hoid)]
  have hfindB : ((db.lexunits.map (fun r => if r.oid == A.oid then A2 else r)).map
      (fun r => if r.oid == B.oid then B2 else r)).find? (fun r => r.oid == B.oid)
      = some B2 := by
    have := find?_oid_map LexUni.oid (fun r => if r.oid == B.oid then B2 else r) hoidB
      B.oid (db.lexunits.map (fun r => if r.oid == A.oid then A2 else r))
    rw [this, hfind2]
    simp only [Option.map_some']
    rw [if_pos (by simp)]
  have hdb2 : insert_relation_information db [rel] []
      = Except.ok { db with
          lexunits := (db.lexunits.map (fun r => if r.oid == A.oid then A2 else r)).map
            (fun r => if r.oid == B.oid then B2 else r),
          synsets := db.synsets } := by
    unfold insert_relation_information
    rw [hfold]
    simp only [foldlME, saveRels, hA2, hB2]
  refine ⟨_, A2, B2, hdb2, hfindA, hfindB, ?_, ?_, ?_, ?_⟩
  · exact (mem_sortLe relLe (nm, B.oid) _).mpr (mem_addRel A.rels (nm, B.oid))
  · exact (mem_sortLe relLe (nm, A.oid) _).mpr (mem_addRel B.rels (nm, A.oid))
  · refine ⟨B2, ?_, rfl⟩
    apply List.mem_filterMap.mpr
    refine ⟨(nm, B.oid), (mem_sortLe relLe (nm, B.oid) _).mpr (mem_addRel A.rels (nm, B.oid)), ?_⟩
    simp only [beq_self_eq_true, if_true, DB.find_lexunit, hfindB]
  · refine ⟨A2, ?_, rfl⟩
    apply List.mem_filterMap.mpr
    refine ⟨(nm, A.oid), (mem_sortLe relLe (nm, A.oid) _).mpr (mem_addRel B.rels (nm, A.oid)), ?_⟩
    simp only [beq_self_eq_true, if_true, DB.find_lexunit, hfindA]

/-- Witness for C8: the theorem applied to the antonymy record between
the two concrete lexical units. -/
theorem C8_witness :
    ∃ db2 A2 B2,
      insert_relation_information dbAB [relAB] [] = Except.ok db2 ∧
      db2.lexunits.find? (fun u => u.oid == luA.oid) = some A2 ∧
      db2.lexunits.find? (fun u => u.oid == luB.oid) = some B2 ∧
      ("has_antonym", luB.oid) ∈ A2.rels ∧ ("has_antonym", luA.oid) ∈ B2.rels ∧
      (∃ u, some u ∈ LexUni.rels_by_name db2 A2 "has_antonym" ∧ u.oid = luB.oid) ∧
      (∃ u, some u ∈ LexUni.rels_by_name db2 B2 "has_antonym" ∧ u.oid = luA.oid) :=
  C8_lex_rel_both_symmetric dbAB "l1" "l2" "has_antonym" luA luB (by decide) (by decide)
    (by decide) (by decide) relAB (by decide) (by decide) (by decide) (by decide) (by decide)

theorem lookup_mem {β : Type} (k : String) (v : β) :
    ∀ cache : List (String × β), cache.lookup k = some v → (k, v) ∈ cache
  | [], h => by simp [List.lookup] at h
  | (k2, v2) :: rest, h => by
    by_cases he : (k == k2) = true
    · simp only [List.lookup, he] at h
      have hk : k = k2 := beq_iff_eq.mp he
      have hv : v2 = v := Option.some.inj h
      rw [← hk, hv]
      exact List.mem_cons_self _ _
    · simp only [List.lookup, bool_eq_false_of_not he] at h
      exact List.mem_cons_of_mem _ (lookup_mem k v rest h)

theorem cacheGet_inv {α : Type} (oidf : α → Nat) (getRels : α → List (String × Nat))
    (extId : α → String) (recs : List α) (cache : List (String × Option α)) (k : String)
    (hinv : cacheInv oidf getRels recs cache) :
    cacheInv oidf getRels recs (cacheGet recs extId cache k).1 := by
  intro k2 u hmem
  unfold cacheGet at hmem
  cases hl : cache.lookup k with
  | some v =>
    rw [hl] at hmem
    exact hinv k2 u hmem
  | none =>
    rw [hl] at hmem
    simp only [List.mem_append, List.mem_singleton] at hmem
    rcases hmem with h | h
    · exact hinv k2 u h
    · have hfind : recs.find? (fun r => extId r == k) = some u := by
        have h2 := (Prod.mk.injEq _ _ _ _).mp h
        exact h2.2.symm
      exact ⟨u, List.mem_of_find?_eq_some hfind, rfl, fun e he => Or.inl he⟩

theorem cacheGet_fact {α : Type} (oidf : α → Nat) (getRels : α → List (String × Nat))
    (extId : α → String) (recs : List α) (cache : List (String × Option α)) (k : String)
    (u : α) (hinv : cacheInv oidf getRels recs cache)
    (h : (cacheGet recs extId cache k).2 = some u) :
    recFact oidf getRels recs u := by
  unfold cacheGet at h
  cases hl : cache.lookup k with
  | some v =>
    rw [hl] at h
    exact hinv k u (h ▸ lookup_mem k v cache hl)
  | none =>
    rw [hl] at h
    simp only at h
    exact ⟨u, List.mem_of_find?_eq_some h, rfl, fun e he => Or.inl he⟩

theorem cacheSet_inv {α : Type} (oidf : α → Nat) (getRels : α → List (String × Nat))
    (recs : List α) (cache : List (String × Option α)) (k : String) (v : α)
    (hinv : cacheInv oidf getRels recs cache) (hv : recFact oidf getRels recs v) :
    cacheInv oidf getRels recs (cacheSet cache k v) := by
  intro k2 u hmem
  unfold cacheSet at hmem
  rcases List.mem_map.mp hmem with ⟨e, he, heq⟩
  by_cases hk : (e.1 == k) = true
  · rw [if_pos hk] at heq
    have hu : v = u := Option.some.inj ((Prod.mk.injEq _ _ _ _).mp heq).2
    exact hu ▸ hv
  · rw [if_neg hk] at heq
    exact hinv k2 u (heq ▸ he)

theorem recFact_addRel {α : Type} (oidf : α → Nat) (getRels : α → List (String × Nat))
    (setRels : α → List (String × Nat) → α)
    (hso : ∀ u rs, oidf (setRels u rs) = oidf u)
    (hsr : ∀ u rs, getRels (setRels u rs) = rs)
    (recs : List α) (u : α) (hu : recFact oidf getRels recs u)
    (nm : String) (n2 : Nat) (ht : ∃ t ∈ recs, oidf t = n2) :
    recFact oidf getRels recs (setRels u (addRel (getRels u) (nm, n2))) := by
  obtain ⟨r, hr, hro, hre⟩ := hu
  refine ⟨r, hr, by rw [hso]; exact hro, ?_⟩
  intro e he
  rw [hsr] at he
  rcases mem_addRel_of_mem _ e _ he with h | h
  · exact hre e h
  · subst h
    exact Or.inr ht

theorem recFact_target {α : Type} (oidf : α → Nat) (getRels : α → List (String × Nat))
    (recs : List α) (u : α) (hu : recFact oidf getRels recs u) :
    ∃ t ∈ recs, oidf t = oidf u := by
  obtain ⟨r, hr, hro, _⟩ := hu
  exact ⟨r, hr, hro⟩

theorem wireStep_inv {α : Type} (oidf : α → Nat) (extId : α → String)
    (getRels : α → List (String × Nat)) (setRels : α → List (String × Nat) → α)
    (hso : ∀ u rs, oidf (setRels u rs) = oidf u)
    (hsr : ∀ u rs, getRels (setRels u rs) = rs)
    (invDirs : List String) (recs : List α) (cache : List (String × Option α))
    (rel : List (String × String)) (cacheE : List (String × Option α))
    (hinv : cacheInv oidf getRels recs cache)
    (hstep : wireStep oidf extId getRels setRels invDirs recs cache rel = Except.ok cacheE) :
    cacheInv oidf getRels recs cacheE := by
  unfold wireStep at hstep
  rcases h1 : rel.lookup "from" with _ | fromId
  case none => rw [h1] at hstep; exact Except.noConfusion hstep
  simp only [h1] at hstep
  rcases h2 : rel.lookup "to" with _ | toId
  case none => rw [h2] at hstep; exact Except.noConfusion hstep
  simp only [h2] at hstep
  have hinv1 : cacheInv oidf getRels recs (cacheGet recs extId cache fromId).1 :=
    cacheGet_inv oidf getRels extId recs cache fromId hinv
  have hinv2 : cacheInv oidf getRels recs
      (cacheGet recs extId (cacheGet recs extId cache fromId).1 toId).1 :=
    cacheGet_inv oidf getRels extId recs _ toId hinv1
  rcases hfu : (cacheGet recs extId cache fromId).2 with _ | fu
  case none => rw [hfu] at hstep; exact Except.noConfusion hstep
  simp only [hfu] at hstep
  have hfactFu : recFact oidf getRels recs fu :=
    cacheGet_fact oidf getRels extId recs cache fromId fu hinv hfu
  rcases h3 : rel.lookup "name" with _ | name
  case none => rw [h3] at hstep; exact Except.noConfusion hstep
  simp only [h3] at hstep
  rcases htu : (cacheGet recs extId (cacheGet recs extId cache fromId).1 toId).2 with _ | tu
  case none => rw [htu] at hstep; exact Except.noConfusion hstep
  simp only [htu] at hstep
  have hfactTu : recFact oidf getRels recs tu :=
    cacheGet_fact oidf getRels extId recs _ toId tu hinv1 htu
  have hfactFu2 : recFact oidf getRels recs
      (setRels fu (addRel (getRels fu) (name, oidf tu))) :=
    recFact_addRel oidf getRels setRels hso hsr recs fu hfactFu name (oidf tu)
      (recFact_target oidf getRels recs tu hfactTu)
  rcases h4 : rel.lookup "dir" with _ | dir
  case none => rw [h4] at hstep; exact Except.noConfusion hstep
  simp only [h4] at hstep
  set cset := cacheSet (cacheGet recs extId (cacheGet recs extId cache fromId).1 toId).1
    fromId (setRels fu (addRel (getRels fu) (name, oidf tu))) with hcset
  have hinv3 : cacheInv oidf getRels recs cset :=
    cacheSet_inv oidf getRels recs _ fromId _ hinv2 hfactFu2
  by_cases h5 : invDirs.contains dir = true
  · rw [if_pos h5] at hstep
    rcases h6 : rel.lookup "inv" with _ | inv
    · rw [h6] at hstep
      exact Except.noConfusion hstep
    · simp only [h6] at hstep
      rcases h7 : cset.lookup toId with _ | v
      · simp only [h7] at hstep
        rw [← Except.ok.inj hstep]
        exact cacheSet_inv oidf getRels recs _ toId _ hinv3
          (recFact_addRel oidf getRels setRels hso hsr recs tu hfactTu inv (oidf fu)
            (recFact_target oidf getRels recs fu hfactFu))
      · rcases v with _ | u
        · simp only [h7] at hstep
          rw [← Except.ok.inj hstep]
          exact cacheSet_inv oidf getRels recs _ toId _ hinv3
            (recFact_addRel oidf getRels setRels hso hsr recs tu hfactTu inv (oidf fu)
              (recFact_target oidf getRels recs fu hfactFu))
        · simp only [h7] at hstep
          have hfactU : recFact oidf getRels recs u :=
            hinv3 toId u (lookup_mem toId (some u) cset h7)
          rw [← Except.ok.inj hstep]
          exact cacheSet_inv oidf getRels recs _ toId _ hinv3
            (recFact_addRel oidf getRels setRels hso hsr recs u hfactU inv (oidf fu)
              (recFact_target oidf getRels recs fu hfactFu))
  · rw [if_neg h5] at hstep
    rw [← Except.ok.inj hstep]
    exact hinv3

theorem foldlME_inv {ε σ α : Type} (f : σ → α → Except ε σ) (P : σ → Prop)
    (hf : ∀ st x st2, P st → f st x = Except.ok st2 → P st2) :
    ∀ (l : List α) (st st2 : σ), P st → foldlME f st l = Except.ok st2 → P st2
  | [], st, st2, hst, h => by
    simp only [foldlME] at h
    exact (Except.ok.inj h) ▸ hst
  | x :: xs, st, st2, hst, h => by
    simp only [foldlME] at h
    cases hfx : f st x with
    | error e => rw [hfx] at h; exact Except.noConfusion h
    | ok stm =>
      rw [hfx] at h
      exact foldlME_inv f P hf xs stm st2 (hf st x stm hst hfx) h

theorem mem_saveRels {α : Type} (oidf : α → Nat) (getRels : α → List (String × Nat))
    (setRels : α → List (String × Nat) → α) :
    ∀ (cache : List (String × Option α)) (recs : List α) (x : α),
      x ∈ saveRels oidf getRels setRels recs cache →
      x ∈ recs ∨ ∃ u k, (k, some u) ∈ cache ∧ x = setRels u (sortLe relLe (getRels u))
  | [], recs, x, hx => Or.inl hx
  | (k0, none) :: rest, recs, x, hx => by
    rcases mem_saveRels oidf getRels setRels rest recs x hx with h | ⟨u, k, hk, he⟩
    · exact Or.inl h
    · exact Or.inr ⟨u, k, List.mem_cons_of_mem _ hk, he⟩
  | (k0, some u0) :: rest, recs, x, hx => by
    rcases mem_saveRels oidf getRels setRels rest _ x hx with h | ⟨u, k, hk, he⟩
    · rcases List.mem_map.mp h with ⟨r, hr, heq⟩
      by_cases hc : (oidf r == oidf u0) = true
      · rw [if_pos hc] at heq
        exact Or.inr ⟨u0, k0, List.mem_cons_self _ _, heq.symm⟩
      · rw [if_neg hc] at heq
        exact Or.inl (heq ▸ hr)
    · exact Or.inr ⟨u, k, List.mem_cons_of_mem _ hk, he⟩

theorem wire_pass_safety {α : Type} (oidf : α → Nat) (extId : α → String)
    (getRels : α → List (String × Nat)) (setRels : α → List (String × Nat) → α)
    (hso : ∀ u rs, oidf (setRels u rs) = oidf u)
    (hsr : ∀ u rs, getRels (setRels u rs) = rs)
    (invDirs : List String) (recs : List α) (rels : List (List (String × String)))
    (cacheE : List (String × Option α))
    (h : foldlME (wireStep oidf extId getRels setRels invDirs recs) [] rels = Except.ok cacheE)
    (x : α) (hx : x ∈ saveRels oidf getRels setRels recs cacheE) :
    ∀ e ∈ getRels x, (∃ t ∈ recs, oidf t = e.2) ∨ ∃ u ∈ recs, oidf u = oidf x ∧ e ∈ getRels u := by
  have hinvE : cacheInv oidf getRels recs cacheE :=
    foldlME_inv _ (cacheInv oidf getRels recs)
      (fun st xx st2 hst hstep =>
        wireStep_inv oidf extId getRels setRels hso hsr invDirs recs st xx st2 hst hstep)
      rels [] cacheE (fun k u hmem => absurd hmem (List.not_mem_nil _)) h
  intro e he
  rcases mem_saveRels oidf getRels setRels cacheE recs x hx with hxr | ⟨u, k, hk, hxe⟩
  · exact Or.inr ⟨x, hxr, rfl, he⟩
  · subst hxe
    rw [hsr] at he
    have hmem : e ∈ getRels u := (mem_sortLe relLe e _).mp he
    obtain ⟨r, hr, hro, hre⟩ := hinvE k u hk
    rcases hre e hmem with h2 | h2
    · exact Or.inr ⟨r, hr, by rw [hso]; exact hro, h2⟩
    · exact Or.inl h2

/-- Claim C10: the relation and paraphrase passes require every from, to
and lexUnitId external id to resolve.  A completed relation pass only
stores edges whose target ObjectId belonged to a collection document (or
edges that were already stored); and when an id resolves to no document
the pass raises at that point (KeyError or TypeError from dereferencing
the None lookup result) instead of skipping the edge or paraphrase. -/
theorem C10_wiring_requires_resolution :
    (∀ (db : DB) (lex_rels con_rels : List (List (String × String))) (db2 : DB),
      insert_relation_information db lex_rels con_rels = Except.ok db2 →
      (∀ u2 ∈ db2.lexunits, ∀ e ∈ u2.rels,
        (∃ r ∈ db.lexunits, r.oid = e.2) ∨
        ∃ u ∈ db.lexunits, u.oid = u2.oid ∧ e ∈ u.rels) ∧
      (∀ s2 ∈ db2.synsets, ∀ e ∈ s2.rels,
        (∃ r ∈ db.synsets, r.oid = e.2) ∨
        ∃ s ∈ db.synsets, s.oid = s2.oid ∧ e ∈ s.rels)) ∧
    (∀ (db : DB) (rel : List (String × String)) (f : String),
      rel.lookup "from" = some f →
      db.lexunits.find? (fun u => u.id == f) = none →
      ∃ err, insert_relation_information db [rel] [] = Except.error err) ∧
    (∀ (db : DB) (rel : List (String × String)) (f t : String) (FU : LexUni),
      rel.lookup "from" = some f → rel.lookup "to" = some t → t ≠ f →
      db.lexunits.find? (fun u => u.id == f) = some FU →
      db.lexunits.find? (fun u => u.id == t) = none →
      ∃ err, insert_relation_information db [rel] [] = Except.error err) ∧
    (∀ (db : DB) (para : List (String × AttrVal)) (k : String),
      para.lookup "lexUnitId" = some (AttrVal.str k) →
      db.lexunits.find? (fun u => u.id == k) = none →
      insert_paraphrase_information db [para] = Except.error PyError.typeError) := by
  refine ⟨?_, ?_, ?_, ?_⟩
  · intro db lex_rels con_rels db2 h
    unfold insert_relation_information at h
    rcases hl : foldlME (wireStep LexUni.oid LexUni.id LexUni.rels
        (fun u rs => { u with rels := rs }) ["both"] db.lexunits) [] lex_rels
        with e | lexCache
    · rw [hl] at h
      exact Except.noConfusion h
    simp only [hl] at h
    rcases hc : foldlME (wireStep Synset.oid Synset.id Synset.rels
        (fun u rs => { u with rels := rs }) ["both", "revert"] db.synsets) [] con_rels
        with e | synCache
    · rw [hc] at h
      exact Except.noConfusion h
    simp only [hc] at h
    have hdb2 := Except.ok.inj h
    constructor
    · intro u2 hu2 e he
      have hu2b : u2 ∈ saveRels LexUni.oid LexUni.rels
          (fun u rs => { u with rels := rs }) db.lexunits lexCache := by
        rw [← hdb2] at hu2
        exact hu2
      exact wire_pass_safety LexUni.oid LexUni.id LexUni.rels
        (fun u rs => { u with rels := rs }) (fun _ _ => rfl) (fun _ _ => rfl)
        ["both"] db.lexunits lex_rels lexCache hl u2 hu2b e he
    · intro s2 hs2 e he
      have hs2b : s2 ∈ saveRels Synset.oid Synset.rels
          (fun u rs => { u with rels := rs }) db.synsets synCache := by
        rw [← hdb2] at hs2
        exact hs2
      exact wire_pass_safety Synset.oid Synset.id Synset.rels
        (fun u rs => { u with rels := rs }) (fun _ _ => rfl) (fun _ _ => rfl)
        ["both", "revert"] db.synsets con_rels synCache hc s2 hs2b e he
  · intro db rel f hf hfind
    rcases h2 : rel.lookup "to" with _ | t <;>
      simp [insert_relation_information, foldlME, wireStep, cacheGet, List.lookup,
        hf, h2, hfind]
  · intro db rel f t FU hf ht htf hfindF hfindT
    have htf2 : (t == f) = false := beq_eq_false_iff_ne.mpr htf
    rcases h3 : rel.lookup "name" with _ | nm <;>
      simp [insert_relation_information, foldlME, wireStep, cacheGet, List.lookup,
        hf, ht, h3, htf2, hfindF, hfindT]
  · intro db para k hk hfind
    simp [insert_paraphrase_information, foldlME, paraphraseStep, cacheGet,
      List.lookup, hk, hfind]

/-- Witness for C10: the safety statement applied to the imported
antonymy edge, and the failing statements applied to records whose
external ids resolve to no document. -/
theorem C10_witness :
    ((∃ r ∈ dbAB.lexunits, r.oid = 2) ∨
      ∃ u ∈ dbAB.lexunits, u.oid = luA2.oid ∧ ("has_antonym", 2) ∈ u.rels) ∧
    (∃ err, insert_relation_information dbAB [relDangling] [] = Except.error err) ∧
    insert_paraphrase_information dbAB [paraDangling] = Except.error PyError.typeError := by
  refine ⟨?_, ?_, ?_⟩
  · exact (C10_wiring_requires_resolution.1 dbAB [relAB] [] dbAB2 (by decide)).1
      luA2 (by decide) ("has_antonym", 2) (by decide)
  · exact C10_wiring_requires_resolution.2.1 dbAB relDangling "nosuch" (by decide) (by decide)
  · exact C10_wiring_requires_resolution.2.2.2 dbAB paraDangling "nosuch" (by decide) (by decide)

/-- Claim C7: running the information-content builder on the two-synset
hierarchy (root synR, child synC, single hypernym path R to C) with one
count line giving 10 to Hund, whose only synset is synC, leaves the
accumulated count of synC at 11 (1 smoothing + 10), the accumulated count
of synR at 11 (inherited along the path), and total_count at 11; every
saved synset carries infocont equal to its accumulated count divided by
total_count, the untouched synset synU at 1/11. -/
theorem C7_infocontent_conservation :
    ∃ syns : List Synset, ∃ counts : Nat → ℚ, ∃ total : ℚ,
      insert_infocontent_data dbIC 3 [["10", "n", "Hund"]] =
        Except.ok (syns, counts, total) ∧
      counts synC.oid = 11 ∧ counts synR.oid = 11 ∧ counts synU.oid = 1 ∧
      total = 11 ∧
      syns.map Synset.oid = [synR.oid, synC.oid, synU.oid] ∧
      syns.map Synset.infocont =
        [counts synR.oid / total, counts synC.oid / total, counts synU.oid / total] ∧
      counts synR.oid / total = 1 ∧ counts synU.oid / total = 1 / 11 := by
  have hpyint : pyInt "10" = Except.ok 10 := by rfl
  have hsyn : GermaNet.synsets dbIC "Hund" (some "n") = Except.ok [1] := by rfl
  have hfind : dbIC.find_synset 1 = some synC := by rfl
  have hpaths : Synset.hypernym_paths dbIC 3 synC = Except.ok [[0, 1]] := by rfl
  unfold insert_infocontent_data
  simp only [foldlME, infocont_line_step, hpyint, hsyn, hfind, hpaths,
    List.isEmpty_cons, Bool.false_eq_true, if_false, List.foldl,
    List.length_cons, List.length_nil]
  refine ⟨_, _, _, rfl, ?_, ?_, ?_, ?_, ?_, ?_, ?_, ?_⟩
  · norm_num [synC, Function.update_apply]
  · norm_num [synR, Function.update_apply]
  · norm_num [synU, Function.update_apply]
  · norm_num
  · norm_num [dbIC, synR, synC, synU, List.map]
  · simp [dbIC, List.map]
  · norm_num [synR, Function.update_apply]
  · norm_num [synU, synR, Function.update_apply]

/-- listMin of a nonempty list is never none. -/
theorem listMin_ne_none {α : Type} [LinearOrder α] (x : α) (xs : List α) :
    listMin (x :: xs) ≠ none := by
  simp only [listMin]
  rcases listMin xs with _ | m <;> simp

/-- The minimum returned by listMin is an element of the list. -/
theorem listMin_mem {α : Type} [LinearOrder α] :
    ∀ (l : List α) (m : α), listMin l = some m → m ∈ l := by
  intro l
  induction l with
  | nil => intro m h; exact Option.noConfusion h
  | cons x xs ih =>
    intro m h
    simp only [listMin] at h
    rcases hx : listMin xs with _ | m2
    · simp only [hx] at h
      obtain rfl := Option.some.inj h
      exact List.mem_cons_self x xs
    · simp only [hx] at h
      obtain rfl := Option.some.inj h
      rcases le_total x m2 with hle | hle
      · rw [min_eq_left hle]; exact List.mem_cons_self x xs
      · rw [min_eq_right hle]; exact List.mem_cons_of_mem x (ih m2 hx)

/-- The minimum returned by listMin is a lower bound of the list. -/
theorem listMin_le {α : Type} [LinearOrder α] :
    ∀ (l : List α) (m : α), listMin l = some m → ∀ x ∈ l, m ≤ x := by
  intro l
  induction l with
  | nil => intro m h x hx; exact Option.noConfusion h
  | cons y ys ih =>
    intro m h x hx
    simp only [listMin] at h
    rcases hy : listMin ys with _ | m2
    · simp only [hy] at h
      obtain rfl := Option.some.inj h
      rcases List.mem_cons.mp hx with rfl | hx2
      · exact le_refl x
      · rcases ys with _ | ⟨a, as⟩
        · cases hx2
        · exact absurd hy (listMin_ne_none a as)
    · simp only [hy] at h
      obtain rfl := Option.some.inj h
      rcases List.mem_cons.mp hx with rfl | hx2
      · exact min_le_left x m2
      · exact le_trans (min_le_right y m2) (ih m2 hy x hx2)

/-- mapME succeeds when the element function succeeds on every element. -/
theorem mapME_ok_of_forall {ε α β : Type} (g : α → Except ε β) :
    ∀ (l : List α), (∀ x ∈ l, ∃ y, g x = Except.ok y) →
      ∃ ys, mapME g l = Except.ok ys := by
  intro l
  induction l with
  | nil => intro h0; exact ⟨[], rfl⟩
  | cons x xs ih =>
    intro hall
    obtain ⟨y, hy⟩ := hall x (List.mem_cons_self x xs)
    obtain ⟨ys, hys⟩ := ih (fun z hz => hall z (List.mem_cons_of_mem x hz))
    exact ⟨y :: ys, by simp only [mapME, hy, hys]⟩

/-- Membership correspondence between the input and output of a
successful mapME. -/
theorem mapME_ok_mem {ε α β : Type} (g : α → Except ε β) :
    ∀ (l : List α) (ys : List β), mapME g l = Except.ok ys →
      (∀ y ∈ ys, ∃ x ∈ l, g x = Except.ok y) ∧
      (∀ x ∈ l, ∃ y ∈ ys, g x = Except.ok y) := by
  intro l
  induction l with
  | nil =>
    intro ys h
    simp only [mapME] at h
    obtain rfl := Except.ok.inj h
    exact ⟨fun y hy => absurd hy (List.not_mem_nil y),
      fun x hx => absurd hx (List.not_mem_nil x)⟩
  | cons x xs ih =>
    intro ys h
    simp only [mapME] at h
    rcases hx : g x with e | y
    · simp only [hx] at h; exact Except.noConfusion h
    · simp only [hx] at h
      rcases hrest : mapME g xs with e2 | ys2
      · simp only [hrest] at h; exact Except.noConfusion h
      · simp only [hrest] at h
        obtain rfl := Except.ok.inj h
        obtain ⟨ihl, ihr⟩ := ih ys2 hrest
        constructor
        · intro z hz
          rcases List.mem_cons.mp hz with rfl | hz2
          · exact ⟨x, List.mem_cons_self x xs, hx⟩
          · obtain ⟨w, hw, hgw⟩ := ihl z hz2
            exact ⟨w, List.mem_cons_of_mem x hw, hgw⟩
        · intro z hz
          rcases List.mem_cons.mp hz with rfl | hz2
          · exact ⟨y, List.mem_cons_self y ys2, hx⟩
          · obtain ⟨w, hw, hgw⟩ := ihr z hz2
            exact ⟨w, List.mem_cons_of_mem y hw, hgw⟩

/-- A successful hypernym_paths never returns an empty list of paths. -/
theorem hypernym_paths_ne_nil (db : DB) :
    ∀ (fuel : Nat) (s : Synset) (ps : List (List Nat)),
      Synset.hypernym_paths db fuel s = Except.ok ps → ps ≠ [] := by
  intro fuel
  induction fuel with
  | zero => intro s ps h; exact Except.noConfusion h
  | succ n ih =>
    intro s ps h
    simp only [Synset.hypernym_paths] at h
    rcases hres : resolveSynsets db s.hypernymIds with e | hs
    · simp only [hres] at h; exact Except.noConfusion h
    · simp only [hres] at h
      by_cases hie : hs.isEmpty = true
      · rw [if_pos hie] at h
        obtain rfl := Except.ok.inj h
        simp
      · rw [if_neg hie] at h
        rcases hs with _ | ⟨b, t⟩
        · exact absurd rfl hie
        · simp only [mapME] at h
          rcases hb : Synset.hypernym_paths db n b with e | psb
          · simp only [hb] at h; exact Except.noConfusion h
          · simp only [hb] at h
            rcases hrest : mapME (fun h2 => Synset.hypernym_paths db n h2) t with e2 | yss
            · simp only [hrest] at h; exact Except.noConfusion h
            · simp only [hrest] at h
              obtain rfl := Except.ok.inj h
              have hpsb := ih b psb hb
              simp only [List.map_cons, List.flatten_cons]
              intro hn
              rcases List.append_eq_nil.mp hn with ⟨h1, h2⟩
              exact hpsb (List.map_eq_nil_iff.mp h1)

/-- One successful step of hypernym_paths on a synset with hypernyms: the
result collects, over every resolved hypernym b and every path of b, that
path with the child's ObjectId appended. -/
theorem hypernym_paths_succ_ok (db : DB) (fuel : Nat) (s : Synset) (hs : List Synset)
    (hres : resolveSynsets db s.hypernymIds = Except.ok hs) (hne : hs ≠ [])
    (hall : ∀ h ∈ hs, ∃ ps, Synset.hypernym_paths db fuel h = Except.ok ps) :
    ∃ pss, Synset.hypernym_paths db (fuel + 1) s = Except.ok pss ∧ pss ≠ [] ∧
      ∀ q, q ∈ pss ↔ ∃ b ∈ hs, ∃ psb, Synset.hypernym_paths db fuel b = Except.ok psb ∧
        ∃ p ∈ psb, q = p ++ [s.oid] := by
  obtain ⟨pss0, hmap⟩ := mapME_ok_of_forall (fun h2 => Synset.hypernym_paths db fuel h2) hs hall
  obtain ⟨hfwd, hbwd⟩ := mapME_ok_mem (fun h2 => Synset.hypernym_paths db fuel h2) hs pss0 hmap
  have hie : ¬ (hs.isEmpty = true) := by
    rcases hs with _ | ⟨b, t⟩
    · exact absurd rfl hne
    · simp
  have hmemIff : ∀ q,
      q ∈ (pss0.map (fun ps => ps.map (fun p => p ++ [s.oid]))).flatten ↔
        ∃ b ∈ hs, ∃ psb, Synset.hypernym_paths db fuel b = Except.ok psb ∧
          ∃ p ∈ psb, q = p ++ [s.oid] := by
    intro q
    rw [List.mem_flatten]
    constructor
    · rintro ⟨l2, hl2, hq⟩
      obtain ⟨ps, hps, rfl⟩ := List.mem_map.mp hl2
      obtain ⟨p, hp, rfl⟩ := List.mem_map.mp hq
      obtain ⟨b, hb, hgb⟩ := hfwd ps hps
      exact ⟨b, hb, ps, hgb, p, hp, rfl⟩
    · rintro ⟨b, hb, psb, hpsb, p, hp, rfl⟩
      obtain ⟨y, hy, hgb⟩ := hbwd b hb
      have hyeq : y = psb := Except.ok.inj ((hpsb.symm.trans hgb).symm)
      subst hyeq
      exact ⟨y.map (fun p => p ++ [s.oid]), List.mem_map_of_mem _ hy,
        List.mem_map_of_mem _ hp⟩
  refine ⟨(pss0.map (fun ps => ps.map (fun p => p ++ [s.oid]))).flatten, ?_, ?_, hmemIff⟩
  · simp only [Synset.hypernym_paths, hres]
    rw [if_neg hie, hmap]
  · obtain ⟨b, hb⟩ : ∃ b, b ∈ hs := by
      rcases hs with _ | ⟨b, t⟩
      · exact absurd rfl hne
      · exact ⟨b, List.mem_cons_self b t⟩
    obtain ⟨psb, hpsb⟩ := hall b hb
    obtain ⟨p, hp⟩ := List.exists_mem_of_ne_nil psb (hypernym_paths_ne_nil db fuel b psb hpsb)
    exact List.ne_nil_of_mem ((hmemIff (p ++ [s.oid])).mpr ⟨b, hb, psb, hpsb, p, hp, rfl⟩)

/-- Claim C5 (amended): in a hypernym DAG, depth monotonicity holds for
SOME hypernym but not for all of them.  For a synset s whose hypernyms
resolve to a nonempty list hs, all of whose members have successful
hypernym_paths at the given fuel, min_depth of s succeeds and (a) is at
most min_depth(b) + 1 for EVERY hypernym b, and (b) equals
min_depth(b) + 1 for SOME hypernym b, which therefore has strictly
smaller min_depth; the original universally quantified strict inequality
fails when a second, deeper hypernym exists. -/
theorem C5_depth_monotonicity_amended (db : DB) (fuel : Nat) (s : Synset) (hs : List Synset)
    (hres : resolveSynsets db s.hypernymIds = Except.ok hs) (hne : hs ≠ [])
    (hall : ∀ h ∈ hs, ∃ ps, Synset.hypernym_paths db fuel h = Except.ok ps) :
    ∃ ma, Synset.min_depth db (fuel + 1) s = Except.ok ma ∧
      (∀ b ∈ hs, ∀ mb, Synset.min_depth db fuel b = Except.ok mb → ma ≤ mb + 1) ∧
      (∃ b ∈ hs, Synset.min_depth db fuel b = Except.ok (ma - 1) ∧ ma - 1 < ma) := by
  obtain ⟨pss, hpss, hpne, hmem⟩ := hypernym_paths_succ_ok db fuel s hs hres hne hall
  obtain ⟨ma, hma⟩ : ∃ m, listMin (pss.map List.length) = some m := by
    rcases hl : pss.map List.length with _ | ⟨x, xs⟩
    · exact absurd (List.map_eq_nil_iff.mp hl) hpne
    · rcases h2 : listMin (x :: xs) with _ | m
      · exact absurd h2 (listMin_ne_none x xs)
      · exact ⟨m, rfl⟩
  have hmd : Synset.min_depth db (fuel + 1) s = Except.ok ma := by
    simp only [Synset.min_depth, hpss, hma]
  have hmaMem := listMin_mem (pss.map List.length) ma hma
  obtain ⟨q, hq, hqlen⟩ := List.mem_map.mp hmaMem
  obtain ⟨b0, hb0, psb0, hpsb0, p0, hp0, rfl⟩ := (hmem q).mp hq
  have hma1 : ma = p0.length + 1 := by
    rw [← hqlen]; simp
  have hpart1 : ∀ b ∈ hs, ∀ mb, Synset.min_depth db fuel b = Except.ok mb → ma ≤ mb + 1 := by
    intro b hb mb hmb
    obtain ⟨psb, hpsb⟩ := hall b hb
    simp only [Synset.min_depth, hpsb] at hmb
    rcases hminb : listMin (psb.map List.length) with _ | mb2
    · simp only [hminb] at hmb; exact Except.noConfusion hmb
    · simp only [hminb] at hmb
      obtain rfl := Except.ok.inj hmb
      have hmbMem := listMin_mem (psb.map List.length) mb2 hminb
      obtain ⟨p, hp, hplen⟩ := List.mem_map.mp hmbMem
      have hqin : p ++ [s.oid] ∈ pss := (hmem (p ++ [s.oid])).mpr ⟨b, hb, psb, hpsb, p, hp, rfl⟩
      have hle2 := listMin_le (pss.map List.length) ma hma (p ++ [s.oid]).length
        (List.mem_map_of_mem List.length hqin)
      simp only [List.length_append, List.length_cons, List.length_nil] at hle2
      omega
  refine ⟨ma, hmd, hpart1, ?_⟩
  have hpsbne := hypernym_paths_ne_nil db fuel b0 psb0 hpsb0
  obtain ⟨mb, hminb⟩ : ∃ m, listMin (psb0.map List.length) = some m := by
    rcases hl : psb0.map List.length with _ | ⟨x, xs⟩
    · exact absurd (List.map_eq_nil_iff.mp hl) hpsbne
    · rcases h2 : listMin (x :: xs) with _ | m
      · exact absurd h2 (listMin_ne_none x xs)
      · exact ⟨m, rfl⟩
  have hmdb : Synset.min_depth db fuel b0 = Except.ok mb := by
    simp only [Synset.min_depth, hpsb0, hminb]
  have hmb_le : mb ≤ p0.length :=
    listMin_le (psb0.map List.length) mb hminb p0.length (List.mem_map_of_mem List.length hp0)
  have hle := hpart1 b0 hb0 mb hmdb
  refine ⟨b0, hb0, ?_, by omega⟩
  have hmb_eq : mb = ma - 1 := by omega
  rw [← hmb_eq]
  exact hmdb

/-- Witness for C5: the amended theorem applied to the diamond-shaped
database dbDeep at the synset sA, whose hypernyms resolve to the deep
synset sB and the root sRoot. -/
theorem C5_witness :
    ∃ ma, Synset.min_depth dbDeep 4 sA = Except.ok ma ∧
      (∀ b ∈ [sB, sRoot], ∀ mb, Synset.min_depth dbDeep 3 b = Except.ok mb → ma ≤ mb + 1) ∧
      (∃ b ∈ [sB, sRoot], Synset.min_depth dbDeep 3 b = Except.ok (ma - 1) ∧ ma - 1 < ma) :=
  C5_depth_monotonicity_amended dbDeep 3 sA [sB, sRoot] (by rfl) (by decide)
    (by
      intro h hh
      rcases List.mem_cons.mp hh with rfl | hh2
      · exact ⟨[[20, 21, 22]], by rfl⟩
      · rcases List.mem_cons.mp hh2 with rfl | hh3
        · exact ⟨[[20]], by rfl⟩
        · exact absurd hh3 (List.not_mem_nil h))

/-- Counterexample to C5 as stated: in dbDeep the synset sB is a hypernym
of sA (its ObjectId is stored in the has_hypernym edges of sA), yet
min_depth(sA) = 2 is NOT strictly greater than min_depth(sB) = 3, because
sA also has the root itself as a second, shallower hypernym. -/
theorem C5_counterexample :
    sB.oid ∈ sA.hypernymIds ∧
    dbDeep.find_synset sA.oid = some sA ∧
    dbDeep.find_synset sB.oid = some sB ∧
    Synset.min_depth dbDeep 4 sA = Except.ok 2 ∧
    Synset.min_depth dbDeep 4 sB = Except.ok 3 ∧
    ¬ (2 : Nat) > (3 : Nat) := by
  refine ⟨by decide, by rfl, by rfl, by rfl, by rfl, by decide⟩

/-- Every path produced by a successful hypernym_paths call ends in the
ObjectId of the synset the call started from. -/
theorem hypernym_paths_mem_last (db : DB) (fuel : Nat) (s : Synset) (ps : List (List Nat))
    (h : Synset.hypernym_paths db fuel s = Except.ok ps) :
    ∀ p ∈ ps, ∃ p0, p = p0 ++ [s.oid] := by
  rcases fuel with _ | n
  · exact Except.noConfusion h
  · simp only [Synset.hypernym_paths] at h
    rcases hres : resolveSynsets db s.hypernymIds with e | hs
    · simp only [hres] at h; exact Except.noConfusion h
    · simp only [hres] at h
      by_cases hie : hs.isEmpty = true
      · rw [if_pos hie] at h
        obtain rfl := Except.ok.inj h
        intro p hp
        rcases List.mem_cons.mp hp with rfl | hp2
        · exact ⟨[], rfl⟩
        · cases hp2
      · rw [if_neg hie] at h
        rcases hm : mapME (fun h2 => Synset.hypernym_paths db n h2) hs with e | pss
        · simp only [hm] at h; exact Except.noConfusion h
        · simp only [hm] at h
          obtain rfl := Except.ok.inj h
          intro p hp
          obtain ⟨l2, hl2, hpl⟩ := List.mem_flatten.mp hp
          obtain ⟨ps2, hps2, rfl⟩ := List.mem_map.mp hl2
          obtain ⟨p0, hp0, rfl⟩ := List.mem_map.mp hpl
          exact ⟨p0, rfl⟩

/-- An element of a list appears at some index of its enumeration. -/
theorem mem_filterMap_enumFrom (x : Nat) :
    ∀ (r : List Nat) (n : Nat), x ∈ r →
      ∃ i, i ∈ (List.enumFrom n r).filterMap
        (fun ix => if ix.2 == x then some ix.1 else none) := by
  intro r
  induction r with
  | nil => intro n h; cases h
  | cons a as ih =>
    intro n h
    rcases List.mem_cons.mp h with rfl | h2
    · refine ⟨n, ?_⟩
      simp only [List.enumFrom, List.filterMap_cons]
      rw [if_pos (beq_self_eq_true x)]
      exact List.mem_cons_self n _
    · obtain ⟨i, hi⟩ := ih (n + 1) h2
      refine ⟨i, ?_⟩
      simp only [List.enumFrom, List.filterMap_cons]
      by_cases hax : (a == x) = true
      · rw [if_pos hax]
        exact List.mem_cons_of_mem n hi
      · rw [if_neg hax]
        exact hi

/-- Indices extracted from an enumeration starting at n are at least n. -/
theorem filterMap_enumFrom_ge (x : Nat) :
    ∀ (r : List Nat) (n : Nat) (i : Nat),
      i ∈ (List.enumFrom n r).filterMap
        (fun ix => if ix.2 == x then some ix.1 else none) → n ≤ i := by
  intro r
  induction r with
  | nil => intro n i h; cases h
  | cons a as ih =>
    intro n i h
    simp only [List.enumFrom, List.filterMap_cons] at h
    by_cases hax : (a == x) = true
    · rw [if_pos hax] at h
      rcases List.mem_cons.mp h with rfl | h2
      · exact le_refl _
      · exact le_trans (Nat.le_succ n) (ih (n + 1) i h2)
    · rw [if_neg hax] at h
      exact le_trans (Nat.le_succ n) (ih (n + 1) i h)

/-- A nonempty list has a minimum, bounded by any of its members. -/
theorem listMin_exists_of_mem {α : Type} [LinearOrder α] {l : List α} {a : α} (h : a ∈ l) :
    ∃ m, listMin l = some m ∧ m ≤ a := by
  rcases l with _ | ⟨x, xs⟩
  · cases h
  · rcases hm : listMin (x :: xs) with _ | m
    · exact absurd hm (listMin_ne_none x xs)
    · exact ⟨m, rfl, listMin_le (x :: xs) m hm a h⟩

/-- The minimum of a nonempty constant list is that constant. -/
theorem listMin_const {α : Type} [LinearOrder α] {l : List α} {c : α}
    (hne : l ≠ []) (hall : ∀ x ∈ l, x = c) : listMin l = some c := by
  rcases l with _ | ⟨x, xs⟩
  · exact absurd rfl hne
  · rcases hm : listMin (x :: xs) with _ | m
    · exact absurd hm (listMin_ne_none x xs)
    · rw [hall m (listMin_mem (x :: xs) m hm)]

/-- Resolving a list of ObjectIds that all equal the ObjectId of a stored
synset yields that synset once per entry. -/
theorem resolveSynsets_const (db : DB) (a : Synset) :
    ∀ (l : List Nat), (∀ x ∈ l, x = a.oid) → db.find_synset a.oid = some a →
      resolveSynsets db l = Except.ok (l.map (fun _ => a)) := by
  intro l
  induction l with
  | nil => intro h1 h2; rfl
  | cons x xs ih =>
    intro h1 h2
    have hx : x = a.oid := h1 x (List.mem_cons_self x xs)
    subst hx
    have ih2 := ih (fun z hz => h1 z (List.mem_cons_of_mem _ hz)) h2
    simp only [resolveSynsets] at ih2
    simp only [resolveSynsets, mapME, h2, ih2, List.map_cons]

/-- Claim C6 (amended): for a synset a that is stored in the database,
whose hypernym_paths succeed, and whose infocont lies strictly between 0
and 1 or above 1 (0 < infocont and infocont ≠ 1), the synset is its own
nearest common hypernym at summed distance 0, so
sim_res(a,a) = -log(infocont), dist_jcn(a,a) = 0 and sim_lin(a,a) = 1.
When infocont = 1 the Lin denominator -log(ic) + -log(ic) is 0.0 and
sim_lin raises ZeroDivisionError instead of returning 1.0. -/
theorem C6_self_similarity_amended (db : DB) (fuel : Nat) (a : Synset)
    (pa : List (List Nat))
    (hpa : Synset.hypernym_paths db fuel a = Except.ok pa)
    (hfind : db.find_synset a.oid = some a)
    (hpos : 0 < a.infocont) (hne1 : a.infocont ≠ 1) :
    Synset.sim_res db fuel a (PyVal.syn a) = Except.ok (-Real.log ((a.infocont : ℝ))) ∧
    Synset.dist_jcn db fuel a (PyVal.syn a) = Except.ok 0 ∧
    Synset.sim_lin db fuel a (PyVal.syn a) = Except.ok 1 := by
  have hicne : a.infocont ≠ 0 := ne_of_gt hpos
  have hpane := hypernym_paths_ne_nil db fuel a pa hpa
  have hlast := hypernym_paths_mem_last db fuel a pa hpa
  have hocc0 : ∀ p ∈ pa, 0 ∈ pathOccurrences p a.oid := by
    intro p hp
    obtain ⟨p0, rfl⟩ := hlast p hp
    simp only [pathOccurrences, List.reverse_append, List.reverse_cons, List.reverse_nil,
      List.nil_append, List.singleton_append, List.enum, List.enumFrom, List.filterMap_cons]
    rw [if_pos (beq_self_eq_true a.oid)]
    exact List.mem_cons_self 0 _
  have hocc1 : ∀ p ∈ pa, ∀ x, x ≠ a.oid → ∀ i ∈ pathOccurrences p x, 1 ≤ i := by
    intro p hp x hx i hi
    obtain ⟨p0, rfl⟩ := hlast p hp
    simp only [pathOccurrences, List.reverse_append, List.reverse_cons, List.reverse_nil,
      List.nil_append, List.singleton_append, List.enum, List.enumFrom,
      List.filterMap_cons] at hi
    have hcond : ¬ ((a.oid == x) = true) := by
      rw [beq_iff_eq]
      exact fun h => hx h.symm
    rw [if_neg hcond] at hi
    exact filterMap_enumFrom_ge x p0.reverse 1 i hi
  have hda : hypDistAt pa a.oid = some 0 := by
    obtain ⟨p, hp⟩ := List.exists_mem_of_ne_nil pa hpane
    have h0 : (0 : Nat) ∈ (pa.map (fun p => pathOccurrences p a.oid)).flatten :=
      List.mem_flatten.mpr ⟨pathOccurrences p a.oid,
        List.mem_map_of_mem (fun p => pathOccurrences p a.oid) hp, hocc0 p hp⟩
    obtain ⟨m, hm, hle⟩ := listMin_exists_of_mem h0
    unfold hypDistAt
    rw [hm]
    exact congrArg some (Nat.le_zero.mp hle)
  have hdx : ∀ x, x ∈ pa.flatten → x ≠ a.oid → ∃ d, hypDistAt pa x = some d ∧ 1 ≤ d := by
    intro x hxf hxne
    obtain ⟨p, hp, hxp⟩ := List.mem_flatten.mp hxf
    obtain ⟨i, hi0⟩ := mem_filterMap_enumFrom x p.reverse 0 (List.mem_reverse.mpr hxp)
    have hi : i ∈ pathOccurrences p x := by
      simp only [pathOccurrences, List.enum]
      exact hi0
    have hif : i ∈ (pa.map (fun p => pathOccurrences p x)).flatten :=
      List.mem_flatten.mpr ⟨pathOccurrences p x,
        List.mem_map_of_mem (fun p => pathOccurrences p x) hp, hi⟩
    obtain ⟨m, hm, hmle⟩ := listMin_exists_of_mem hif
    refine ⟨m, hm, ?_⟩
    have hmm := listMin_mem _ m hm
    obtain ⟨l2, hl2, hml⟩ := List.mem_flatten.mp hmm
    obtain ⟨p2, hp2, rfl⟩ := List.mem_map.mp hl2
    exact hocc1 p2 hp2 x hxne m hml
  obtain ⟨ch, hcheq⟩ : ∃ ch, Synset.common_hypernyms_dists db fuel a a = Except.ok ch := by
    simp only [Synset.common_hypernyms_dists, hpa]
    exact ⟨_, rfl⟩
  have hchmem : ∀ y, y ∈ ch ↔ ∃ x, x ∈ pa.flatten.dedup ∧ ∃ d1 d2,
      hypDistAt pa x = some d1 ∧ hypDistAt pa x = some d2 ∧ y = (x, d1 + d2) := by
    have h2 := hcheq
    simp only [Synset.common_hypernyms_dists, hpa] at h2
    obtain rfl := Except.ok.inj h2
    intro y
    constructor
    · intro hy
      obtain ⟨x, hx, hfx⟩ := List.mem_filterMap.mp hy
      rcases hd1 : hypDistAt pa x with _ | d1
      · simp only [hd1] at hfx
        exact Option.noConfusion hfx
      · simp only [hd1] at hfx
        exact ⟨x, hx, d1, d1, hd1, hd1, (Option.some.inj hfx).symm⟩
    · rintro ⟨x, hx, d1, d2, hd1, hd2, rfl⟩
      apply List.mem_filterMap.mpr
      refine ⟨x, hx, ?_⟩
      have hd21 : d2 = d1 := Option.some.inj (hd2.symm.trans hd1)
      subst hd21
      simp only [hd1]
  have hmem0 : (a.oid, 0) ∈ ch := by
    apply (hchmem (a.oid, 0)).mpr
    refine ⟨a.oid, ?_, 0, 0, hda, hda, rfl⟩
    apply List.mem_dedup.mpr
    obtain ⟨p, hp⟩ := List.exists_mem_of_ne_nil pa hpane
    obtain ⟨p0, rfl⟩ := hlast p hp
    exact List.mem_flatten.mpr ⟨p0 ++ [a.oid], hp, by simp⟩
  have hall0 : ∀ y ∈ ch, y.2 = 0 → y.1 = a.oid := by
    intro y hy hy2
    obtain ⟨x, hx, d1, d2, hd1, hd2, rfl⟩ := (hchmem y).mp hy
    simp only at hy2
    by_cases hxa : x = a.oid
    · exact hxa
    · obtain ⟨d, hd, hdge⟩ := hdx x (List.mem_dedup.mp hx) hxa
      have hdd1 : d = d1 := Option.some.inj (hd.symm.trans hd1)
      omega
  have hmin0 : listMin (ch.map Prod.snd) = some 0 := by
    have h0m : (0 : Nat) ∈ ch.map Prod.snd := List.mem_map.mpr ⟨(a.oid, 0), hmem0, rfl⟩
    obtain ⟨m, hm, hle⟩ := listMin_exists_of_mem h0m
    rw [hm]
    exact congrArg some (Nat.le_zero.mp hle)
  obtain ⟨nch, hncheq⟩ : ∃ nch, Synset.nearest_common_hypernyms db fuel a a =
      Except.ok nch := by
    simp only [Synset.nearest_common_hypernyms, hcheq, hmin0]
    exact ⟨_, rfl⟩
  have hnchval : nch = (ch.filter (fun y => y.2 == 0)).map Prod.fst := by
    have h2 := hncheq
    simp only [Synset.nearest_common_hypernyms, hcheq, hmin0] at h2
    exact (Except.ok.inj h2).symm
  have hain : a.oid ∈ nch := by
    rw [hnchval]
    apply List.mem_map.mpr
    refine ⟨(a.oid, 0), ?_, rfl⟩
    apply List.mem_filter.mpr
    exact ⟨hmem0, by simp⟩
  have halln : ∀ x ∈ nch, x = a.oid := by
    intro x hx
    rw [hnchval] at hx
    obtain ⟨y, hyf, rfl⟩ := List.mem_map.mp hx
    have hy2 := List.mem_filter.mp hyf
    exact hall0 y hy2.1 (by simpa using hy2.2)
  have hnchne : nch ≠ [] := List.ne_nil_of_mem hain
  have hres2 := resolveSynsets_const db a nch halln hfind
  have hmape : ∀ (l : List Nat),
      (l.map (fun _ => a)).map Synset.infocont = l.map (fun _ => a.infocont) := by
    intro l
    induction l with
    | nil => rfl
    | cons x xs ih => simp [ih]
  have hfilter : (nch.map (fun _ => a.infocont)).filter (fun x => x != 0) =
      nch.map (fun _ => a.infocont) := by
    apply List.filter_eq_self.mpr
    intro q hq
    obtain ⟨z, hz, rfl⟩ := List.mem_map.mp hq
    simpa using hicne
  have hconstmin : listMin (nch.map (fun _ => a.infocont)) = some a.infocont := by
    apply listMin_const
    · intro h0
      exact hnchne (List.map_eq_nil_iff.mp h0)
    · intro q hq
      obtain ⟨z, hz, rfl⟩ := List.mem_map.mp hq
      rfl
  have hie2 : ¬ (nch.isEmpty = true) := by
    rcases nch with _ | ⟨x, t⟩
    · exact absurd rfl hnchne
    · simp
  have hpnl : pyNegLog a.infocont = Except.ok (-Real.log ((a.infocont : ℝ))) := by
    simp only [pyNegLog]
    rw [if_neg (not_le.mpr hpos)]
  have hsimres : Synset.sim_res db fuel a (PyVal.syn a) =
      Except.ok (-Real.log ((a.infocont : ℝ))) := by
    simp only [Synset.sim_res, hncheq]
    rw [if_neg hie2]
    simp only [hres2, hmape nch, hfilter, hconstmin, hpnl]
  have hcond2 : ¬ (a.infocont = 0 ∨ a.infocont = 0) := by
    rw [or_self]
    exact hicne
  have hdist : Synset.dist_jcn db fuel a (PyVal.syn a) = Except.ok 0 := by
    simp only [Synset.dist_jcn]
    rw [if_neg hcond2]
    simp only [hpnl, hsimres]
    exact congrArg Except.ok (by ring)
  have hlogne : Real.log ((a.infocont : ℝ)) ≠ 0 := by
    have hpos2 : (0 : ℝ) < ((a.infocont : ℚ) : ℝ) := by exact_mod_cast hpos
    have hne2 : ((a.infocont : ℚ) : ℝ) ≠ 1 := by exact_mod_cast hne1
    intro h0
    rcases Real.log_eq_zero.mp h0 with h | h | h
    · rw [h] at hpos2; norm_num at hpos2
    · exact hne2 h
    · rw [h] at hpos2; norm_num at hpos2
  have hden : -Real.log ((a.infocont : ℝ)) + -Real.log ((a.infocont : ℝ)) ≠ 0 := by
    intro h0
    apply hlogne
    linarith
  have hlin : Synset.sim_lin db fuel a (PyVal.syn a) = Except.ok 1 := by
    simp only [Synset.sim_lin]
    rw [if_neg hcond2]
    simp only [hpnl, hsimres]
    rw [if_neg hden]
    exact congrArg Except.ok (by rw [div_eq_iff hden]; ring)
  exact ⟨hsimres, hdist, hlin⟩

/-- Witness for C6: the amended theorem applied to the single-synset
database dbSelf, whose synset has infocont one half. -/
theorem C6_witness :
    Synset.sim_res dbSelf 1 synNoun (PyVal.syn synNoun) =
      Except.ok (-Real.log ((synNoun.infocont : ℝ))) ∧
    Synset.dist_jcn dbSelf 1 synNoun (PyVal.syn synNoun) = Except.ok 0 ∧
    Synset.sim_lin dbSelf 1 synNoun (PyVal.syn synNoun) = Except.ok 1 :=
  C6_self_similarity_amended dbSelf 1 synNoun [[0]] (by rfl) (by rfl)
    (by norm_num [synNoun]) (by norm_num [synNoun])

/-- Counterexample to C6 as stated: the synset synFull has nonzero
infocont (it is 1, as GNROOT receives in a full import), yet
sim_lin(synFull, synFull) does not return 1.0: it raises
ZeroDivisionError, because the denominator -log(1) + -log(1) is 0.0. -/
theorem C6_counterexample :
    synFull.infocont = 1 ∧
    Synset.sim_lin dbFull 1 synFull (PyVal.syn synFull) =
      Except.error PyError.zeroDivisionError := by
  refine ⟨rfl, ?_⟩
  have hnch : Synset.nearest_common_hypernyms dbFull 1 synFull synFull =
      Except.ok [30] := by rfl
  have hres : resolveSynsets dbFull [30] = Except.ok [synFull] := by rfl
  have hpnl : pyNegLog (1 : ℚ) = Except.ok (-Real.log ((1 : ℚ) : ℝ)) := by
    simp only [pyNegLog]
    rw [if_neg (by norm_num)]
  have hfl : (([synFull].map Synset.infocont).filter (fun x => x != 0)) = [(1 : ℚ)] := by
    decide
  have hlm : listMin [(1 : ℚ)] = some 1 := by rfl
  have hsr : Synset.sim_res dbFull 1 synFull (PyVal.syn synFull) =
      Except.ok (-Real.log ((1 : ℚ) : ℝ)) := by
    simp only [Synset.sim_res, hnch]
    rw [if_neg (by simp)]
    simp only [hres, hfl, hlm, hpnl]
  have hic : synFull.infocont = (1 : ℚ) := rfl
  simp only [Synset.sim_lin]
  rw [if_neg (by norm_num [synFull])]
  rw [hic]
  simp only [hpnl, hsr]
  rw [if_pos (by simp)]
